import Mathlib

/-!
# Verification of the cosine-similarity duplicate-detection core

Shallow embedding of `src/utils/duplicate/cosine_duplicate.py`
(`CosineDuplicateAnalyzer`) together with the parts of
`src/utils/models.py` it uses (`IssueReference`,
`DuplicateDetectionResult`), and proofs of the specification claims
about it.

Modelling conventions:
* Python `str` is modelled by `String`; character classes (`\w`, `\s`,
  `str.lower`) are modelled on their ASCII fragment.
* Python floats are modelled by real numbers (exact arithmetic); numeric
  literals such as `0.95` and `1.2` are taken at their decimal value.
* scikit-learn's `TfidfVectorizer` (with the constructor arguments used
  in the source) and `cosine_similarity` are embedded directly: the
  token pattern `(?u)\b\w\w+\b`, the English stop-word list, unigram and
  bigram features, `min_df`/`max_df` document-frequency pruning,
  `max_features` truncation, smoothed idf weights
  `log((1+n)/(1+df)) + 1`, and cosine similarity of the resulting
  rows.  The `ValueError`s sklearn raises on an empty or fully pruned
  vocabulary are modelled by `Except.error` carrying sklearn's message.
  Row-wise l2 normalisation (`norm="l2"`) is scale-invariant under the
  subsequent cosine step (zero rows stay zero and yield similarity 0 in
  both), so cosine similarity is computed on the unnormalised rows.
-/

deriving instance DecidableEq for Except

namespace AIIssueTriage

/-! ## Character classes and text normalisation (`_preprocess_text`) -/

/-- ASCII fragment of Python's regex class `\w`: alphanumerics and the
underscore.  (Note `\w` does include `_`, so `[^\w\s]` leaves
underscores in place.) -/
def isWordChar (c : Char) : Bool :=
  c.isAlphanum || c = '_'

/-- ASCII fragment of Python's regex class `\s` (also the characters
`str.strip` removes). -/
def isSpaceChar (c : Char) : Bool :=
  c = ' ' || c = '\t' || c = '\n' || c = '\r' || c = '\x0b' || c = '\x0c'

/-- One step of `re.sub(r"[^\w\s]", " ", text)`: the pattern matches a
single character, so the substitution is a character-wise map. -/
def substNonWord (c : Char) : Char :=
  if !isWordChar c && !isSpaceChar c then ' ' else c

/-- Helper for `collapseWs`: the flag records whether the previous
character was whitespace (so that a maximal whitespace run contributes
exactly one space). -/
def collapseWsAux : Bool → List Char → List Char
  | _, [] => []
  | prevSpace, c :: cs =>
    if isSpaceChar c then
      if prevSpace then collapseWsAux true cs
      else ' ' :: collapseWsAux true cs
    else c :: collapseWsAux false cs

/-- Model of `re.sub(r"\s+", " ", text)`: every maximal run of
whitespace characters becomes a single space. -/
def collapseWs (l : List Char) : List Char :=
  collapseWsAux false l

/-- Model of Python `str.strip()`: drop leading and trailing whitespace. -/
def stripChars (l : List Char) : List Char :=
  ((l.dropWhile fun c => isSpaceChar c).reverse.dropWhile fun c => isSpaceChar c).reverse

/-- Embedding of `CosineDuplicateAnalyzer._preprocess_text`:
`if not text: return ""`, then lowercase, then
`re.sub(r"[^\w\s]", " ", ·)`, then `re.sub(r"\s+", " ", ·)`, then
`str.strip()`. -/
def preprocess_text (text : String) : String :=
  if text = "" then ""
  else
    String.mk
      (stripChars (collapseWs ((text.toList.map Char.toLower).map substNonWord)))

/-! ## Data model (`src/utils/models.py`) -/

/-- Embedding of `utils.models.IssueReference`. -/
structure IssueReference where
  issue_id : String
  title : String
  description : String
  status : String
  created_date : Option String
  url : Option String
deriving DecidableEq, Repr

instance : Inhabited IssueReference :=
  ⟨{ issue_id := "", title := "", description := "", status := "",
     created_date := none, url := none }⟩

/-! ## Issue text combination -/

/-- Python `str.lower()` (ASCII fragment).  Implemented via the
character list so that it reduces definitionally. -/
def pyLower (s : String) : String :=
  String.mk (s.toList.map Char.toLower)

/-- Embedding of `_combine_issue_text`: title is preprocessed and
included twice, then the preprocessed description
(`f"{title} {title} {description}"`). -/
def combine_issue_text (issue : IssueReference) : String :=
  let title := preprocess_text issue.title
  let description := preprocess_text issue.description
  title ++ " " ++ title ++ " " ++ description

/-- Embedding of `_combine_new_issue_text`: identical shape to
`combine_issue_text`, applied to raw title/description strings. -/
def combine_new_issue_text (title description : String) : String :=
  let title_clean := preprocess_text title
  let description_clean := preprocess_text description
  title_clean ++ " " ++ title_clean ++ " " ++ description_clean

/-! ## The sklearn word tokenizer and stop-word list -/

/-- Helper for `wordRuns`: `acc` is the current run of word characters,
reversed. -/
def wordRunsAux : List Char → List Char → List (List Char)
  | acc, [] => if acc.isEmpty then [] else [acc.reverse]
  | acc, c :: cs =>
    if isWordChar c then wordRunsAux (c :: acc) cs
    else if acc.isEmpty then wordRunsAux [] cs
    else acc.reverse :: wordRunsAux [] cs

/-- Maximal runs of word characters in a character list (the matches of
`\w+`). -/
def wordRuns (l : List Char) : List (List Char) :=
  wordRunsAux [] l

/-- sklearn's default `token_pattern` is `(?u)\b\w\w+\b`: maximal runs
of word characters of length at least 2. -/
def sklearnTokenize (s : String) : List String :=
  ((wordRuns s.toList).filter (fun r => 2 ≤ r.length)).map String.mk

/-- sklearn's `ENGLISH_STOP_WORDS` frozen list
(`sklearn.feature_extraction._stop_words`), selected in the source via
`stop_words="english"`. -/
def englishStopWords : List String :=
  ["a", "about", "above", "across", "after", "afterwards", "again",
   "against", "all", "almost", "alone", "along", "already", "also",
   "although", "always", "am", "among", "amongst", "amoungst", "amount",
   "an", "and", "another", "any", "anyhow", "anyone", "anything",
   "anyway", "anywhere", "are", "around", "as", "at", "back", "be",
   "became", "because", "become", "becomes", "becoming", "been",
   "before", "beforehand", "behind", "being", "below", "beside",
   "besides", "between", "beyond", "bill", "both", "bottom", "but",
   "by", "call", "can", "cannot", "cant", "co", "con", "could",
   "couldnt", "cry", "de", "describe", "detail", "do", "done", "down",
   "due", "during", "each", "eg", "eight", "either", "eleven", "else",
   "elsewhere", "empty", "enough", "etc", "even", "ever", "every",
   "everyone", "everything", "everywhere", "except", "few", "fifteen",
   "fifty", "fill", "find", "fire", "first", "five", "for", "former",
   "formerly", "forty", "found", "four", "from", "front", "full",
   "further", "get", "give", "go", "had", "has", "hasnt", "have", "he",
   "hence", "her", "here", "hereafter", "hereby", "herein", "hereupon",
   "hers", "herself", "him", "himself", "his", "how", "however",
   "hundred", "i", "ie", "if", "in", "inc", "indeed", "interest",
   "into", "is", "it", "its", "itself", "keep", "last", "latter",
   "latterly", "least", "less", "ltd", "made", "many", "may", "me",
   "meanwhile", "might", "mill", "mine", "more", "moreover", "most",
   "mostly", "move", "much", "must", "my", "myself", "name", "namely",
   "neither", "never", "nevertheless", "next", "nine", "no", "nobody",
   "none", "noone", "nor", "not", "nothing", "now", "nowhere", "of",
   "off", "often", "on", "once", "one", "only", "onto", "or", "other",
   "others", "otherwise", "our", "ours", "ourselves", "out", "over",
   "own", "part", "per", "perhaps", "please", "put", "rather", "re",
   "same", "see", "seem", "seemed", "seeming", "seems", "serious",
   "several", "she", "should", "show", "side", "since", "sincere",
   "six", "sixty", "so", "some", "somehow", "someone", "something",
   "sometime", "sometimes", "somewhere", "still", "such", "system",
   "take", "ten", "than", "that", "the", "their", "them", "themselves",
   "then", "thence", "there", "thereafter", "thereby", "therefore",
   "therein", "thereupon", "these", "they", "thick", "thin", "third",
   "this", "those", "though", "three", "through", "throughout", "thru",
   "thus", "to", "together", "too", "top", "toward", "towards",
   "twelve", "twenty", "two", "un", "under", "until", "up", "upon",
   "us", "very", "via", "was", "we", "well", "were", "what", "whatever",
   "when", "whence", "whenever", "where", "whereafter", "whereas",
   "whereby", "wherein", "whereupon", "wherever", "whether", "which",
   "while", "whither", "who", "whoever", "whole", "whom", "whose",
   "why", "will", "with", "within", "without", "would", "yet", "you",
   "your", "yours", "yourself", "yourselves"]

/-- Bigrams of a token list, each joined by a single space
(sklearn `_word_ngrams` with `ngram_range=(1, 2)` appends these after
the unigrams). -/
def bigramsOf : List String → List String
  | a :: b :: rest => (a ++ " " ++ b) :: bigramsOf (b :: rest)
  | _ => []

/-- Lexicographic comparison of character lists by code point (the
order Python/numpy use on strings). -/
def lexLeb : List Char → List Char → Bool
  | [], _ => true
  | _ :: _, [] => false
  | a :: as, b :: bs => if a = b then lexLeb as bs else decide (a < b)

/-- Python string `<=` (code-point lexicographic). -/
def strLeb (a b : String) : Bool :=
  lexLeb a.toList b.toList

/-- Stable insertion of one element into a sorted list. -/
def insertSortedBy {α : Type} (leb : α → α → Bool) (a : α) : List α → List α
  | [] => [a]
  | b :: bs => if leb a b then a :: b :: bs else b :: insertSortedBy leb a bs

/-- Stable insertion sort (used to model Python's `sorted` and numpy's
sorts on the small lists appearing here; structural recursion so that
it reduces definitionally). -/
def sortBy {α : Type} (leb : α → α → Bool) : List α → List α
  | [] => []
  | a :: as => insertSortedBy leb a (sortBy leb as)

/-- Configuration of an embedded `TfidfVectorizer`.  The source uses two
instances: the analyzer's own vectorizer
(`stop_words="english", lowercase=True, ngram_range=(1, 2),
max_features=5000, min_df=1, max_df=0.95`) and the temporary
vectorizer of `_calculate_text_similarity`
(`stop_words="english", lowercase=True` with the defaults
`ngram_range=(1, 1), max_df=1.0, max_features=None`). -/
structure VectorizerConfig where
  useBigrams : Bool
  maxDfNum : ℕ
  maxDfDen : ℕ
  maxFeatures : Option ℕ

/-- The vectorizer built in `CosineDuplicateAnalyzer.__init__`
(`max_df=0.95` is carried as the exact fraction `95/100`, so the
document-frequency cut `df ≤ max_df * n_docs` can be decided with
integer arithmetic as `100 * df ≤ 95 * n_docs`). -/
def mainVectorizer : VectorizerConfig :=
  { useBigrams := true, maxDfNum := 95, maxDfDen := 100, maxFeatures := some 5000 }

/-- The temporary vectorizer of `_calculate_text_similarity` (sklearn
defaults apart from stop words and lowercasing; `max_df=1.0`). -/
def tempVectorizer : VectorizerConfig :=
  { useBigrams := false, maxDfNum := 1, maxDfDen := 1, maxFeatures := none }

/-- sklearn's analysis of one document: lowercase, tokenize with
`\b\w\w+\b`, remove stop words, then emit unigrams (and bigrams when
`ngram_range=(1, 2)`). -/
def analyzeDoc (cfg : VectorizerConfig) (doc : String) : List String :=
  let tokens := (sklearnTokenize (pyLower doc)).filter
    (fun t => ¬ t ∈ englishStopWords)
  tokens ++ (if cfg.useBigrams then bigramsOf tokens else [])

/-- Number of occurrences of feature `t` in document `doc` (one entry of
the count matrix). -/
def featureCount (cfg : VectorizerConfig) (doc : String) (t : String) : ℕ :=
  (analyzeDoc cfg doc).count t

/-- Document frequency of feature `t` in the corpus. -/
def docFrequency (cfg : VectorizerConfig) (docs : List String) (t : String) : ℕ :=
  (docs.filter (fun d => 0 < featureCount cfg d t)).length

/-- The vocabulary before document-frequency pruning: every feature
occurring in some document, sorted (sklearn sorts feature names;
the order does not affect similarities). -/
def rawVocabulary (cfg : VectorizerConfig) (docs : List String) : List String :=
  sortBy strLeb ((docs.map (analyzeDoc cfg)).flatten).dedup

/-- Total count of feature `t` over the corpus (used by the
`max_features` truncation). -/
def corpusCount (cfg : VectorizerConfig) (docs : List String) (t : String) : ℕ :=
  (docs.map (fun d => featureCount cfg d t)).sum

/-- sklearn's `max_features` truncation: when more features survive
pruning than `max_features`, keep the `max_features` with the highest
total counts.  (sklearn breaks ties by an unstable `argsort`; the
embedding breaks them by feature name, which no theorem below relies
on — every corpus in this file has far fewer than 5000 features.) -/
def limitFeatures (cfg : VectorizerConfig) (docs : List String)
    (vocab : List String) : List String :=
  match cfg.maxFeatures with
  | none => vocab
  | some m =>
    if vocab.length ≤ m then vocab
    else
      sortBy strLeb
        ((sortBy (fun a b =>
            decide (corpusCount cfg docs b < corpusCount cfg docs a) ||
              (decide (corpusCount cfg docs b = corpusCount cfg docs a) && strLeb a b))
          vocab).take m)

/-- Embedding of `TfidfVectorizer.fit_transform`'s vocabulary fixing,
including the two `ValueError`s sklearn can raise (modelled as
`Except.error` with sklearn's message): an empty vocabulary before
pruning, and a vocabulary emptied by the `min_df`/`max_df` pruning.
With `min_df=1` the low cut keeps every feature (`df ≥ 1` holds by
construction); the high cut keeps `df ≤ max_df * n_docs`. -/
def fitVocabulary (cfg : VectorizerConfig) (docs : List String) :
    Except String (List String) :=
  let raw := rawVocabulary cfg docs
  if raw = [] then
    .error "empty vocabulary; perhaps the documents only contain stop words"
  else
    let pruned := raw.filter (fun t =>
      docFrequency cfg docs t * cfg.maxDfDen ≤ cfg.maxDfNum * docs.length ∧
        1 ≤ docFrequency cfg docs t)
    if pruned = [] then
      .error "After pruning, no terms remain. Try a lower min_df or a higher max_df."
    else
      .ok (limitFeatures cfg docs pruned)

/-! ## Tf-idf weights and cosine similarity

The tf-idf weight of feature `t` in a document is its raw count times
the smoothed idf `log((1+n)/(1+df)) + 1` (sklearn defaults
`smooth_idf=True`, `sublinear_tf=False`).  sklearn then l2-normalises
each row (`norm="l2"`, zero rows are left zero) before
`cosine_similarity` normalises again; both steps are scale-invariant
under cosine, so `cosineSim` below is computed on the raw rows and
returns `0` whenever either row is zero, exactly as the composed
library code does. -/

/-- Smoothed inverse document frequency of feature `t` for a corpus. -/
noncomputable def idf (cfg : VectorizerConfig) (docs : List String) (t : String) : ℝ :=
  Real.log ((1 + docs.length) / (1 + docFrequency cfg docs t)) + 1

/-- One entry of the (unnormalised) tf-idf matrix. -/
noncomputable def tfidfWeight (cfg : VectorizerConfig) (docs : List String)
    (doc t : String) : ℝ :=
  (featureCount cfg doc t : ℝ) * idf cfg docs t

/-- Dot product of the tf-idf rows of documents `d` and `e` over the
fitted vocabulary. -/
noncomputable def dotProd (cfg : VectorizerConfig) (docs : List String)
    (vocab : List String) (d e : String) : ℝ :=
  ∑ i ∈ Finset.range vocab.length,
    tfidfWeight cfg docs d (vocab.getD i "") * tfidfWeight cfg docs e (vocab.getD i "")

/-- Cosine similarity of two tf-idf rows (`0` when either row is zero,
as produced by sklearn's `normalize` + `cosine_similarity`). -/
noncomputable def cosineSim (cfg : VectorizerConfig) (docs : List String)
    (vocab : List String) (d e : String) : ℝ :=
  if dotProd cfg docs vocab d d = 0 ∨ dotProd cfg docs vocab e e = 0 then 0
  else
    dotProd cfg docs vocab d e /
      (Real.sqrt (dotProd cfg docs vocab d d) * Real.sqrt (dotProd cfg docs vocab e e))

/-- Cosine similarities between row 0 (the new issue) and every later
row, as in `cosine_similarity(new_issue_vector, existing_vectors)[0]`. -/
noncomputable def querySimilarities (cfg : VectorizerConfig)
    (all_texts : List String) (vocab : List String) : List ℝ :=
  (all_texts.drop 1).map (cosineSim cfg all_texts vocab (all_texts.headD ""))

/-! ## `np.argmax` and `np.argsort` -/

/-- Helper for `argmaxIdx`: fold keeping the first index of the
maximum (`np.argmax` replaces the current best only on a strictly
greater value). -/
noncomputable def argmaxFrom : ℕ → ℕ → ℝ → List ℝ → ℕ
  | _, best, _, [] => best
  | i, best, bestVal, x :: xs =>
    if bestVal < x then argmaxFrom (i + 1) i x xs
    else argmaxFrom (i + 1) best bestVal xs

/-- Model of `np.argmax`: index of the first occurrence of the maximum
(`0` on the empty list, which the source never hits). -/
noncomputable def argmaxIdx : List ℝ → ℕ
  | [] => 0
  | x :: xs => argmaxFrom 1 0 x xs

/-- The comparison `np.argsort` sorts indices by: ascending value, ties
by ascending index (stable argsort).  This relation is total,
transitive and antisymmetric, so the sorted index list is unique; it
models the tie behaviour numpy's sort exhibits on the small arrays
that matter here. -/
def idxLe (l : List ℝ) (i j : ℕ) : Prop :=
  l.getD i 0 < l.getD j 0 ∨ (l.getD i 0 = l.getD j 0 ∧ i ≤ j)

noncomputable instance (l : List ℝ) : DecidableRel (idxLe l) := fun i j => by
  unfold idxLe; infer_instance

instance (l : List ℝ) : IsTotal ℕ (idxLe l) where
  total i j := by
    unfold idxLe
    rcases lt_trichotomy (l.getD i 0) (l.getD j 0) with h | h | h
    · exact Or.inl (Or.inl h)
    · rcases Nat.le_total i j with hij | hij
      · exact Or.inl (Or.inr ⟨h, hij⟩)
      · exact Or.inr (Or.inr ⟨h.symm, hij⟩)
    · exact Or.inr (Or.inl h)

instance (l : List ℝ) : IsTrans ℕ (idxLe l) where
  trans i j k hij hjk := by
    unfold idxLe at *
    rcases hij with h₁ | ⟨e₁, le₁⟩
    · rcases hjk with h₂ | ⟨e₂, _⟩
      · exact Or.inl (h₁.trans h₂)
      · exact Or.inl (e₂ ▸ h₁)
    · rcases hjk with h₂ | ⟨e₂, le₂⟩
      · exact Or.inl (e₁ ▸ h₂)
      · exact Or.inr ⟨e₁.trans e₂, le₁.trans le₂⟩

/-- Model of `np.argsort(similarities)`: indices sorted ascending by
value (stable). -/
noncomputable def argsortAsc (l : List ℝ) : List ℕ :=
  (List.range l.length).insertionSort (idxLe l)

/-! ## The analyzer and its results -/

/-- Embedding of the state set up by `CosineDuplicateAnalyzer.__init__`:
the two thresholds are stored unconditionally (no validation of any
kind happens at construction); the vectorizer configuration is the
constant `mainVectorizer`. -/
structure CosineDuplicateAnalyzer where
  similarity_threshold : ℝ
  confidence_threshold : ℝ

/-- `CosineDuplicateAnalyzer.__init__` itself: a total constructor that
stores its two arguments verbatim (defaults in the source: 0.6 and
0.6). -/
def CosineDuplicateAnalyzer.init (similarity_threshold confidence_threshold : ℝ) :
    CosineDuplicateAnalyzer :=
  { similarity_threshold := similarity_threshold,
    confidence_threshold := confidence_threshold }

/-- Embedding of `utils.models.DuplicateDetectionResult`. -/
structure DuplicateDetectionResult where
  is_duplicate : Bool
  duplicate_of : Option IssueReference
  similarity_score : ℝ
  similarity_reasons : List String
  confidence_score : ℝ
  recommendation : String

/-! ## Pairwise text similarity and the reason generator -/

/-- Embedding of `_calculate_text_similarity`: empty input returns 0;
otherwise a fresh two-document `TfidfVectorizer(stop_words="english",
lowercase=True)` is fitted on the pair and the cosine similarity of the
two rows is returned; any vectorization error is swallowed to `0.0` by
the bare `except`. -/
noncomputable def calculate_text_similarity (text1 text2 : String) : ℝ :=
  if text1 = "" ∨ text2 = "" then 0
  else
    match fitVocabulary tempVectorizer [text1, text2] with
    | .error _ => 0
    | .ok vocab => cosineSim tempVectorizer [text1, text2] vocab text1 text2

/-- Python renders the numeric score into the reason strings with
`f"{x:.2f}"`.  A decimal rendering of the abstract real-valued score is
not representable here, so the digits are omitted; no theorem in this
file depends on the contents of `similarity_reasons`. -/
def formatScore (_x : ℝ) : String := ""

/-- Python `str.split()` on a preprocessed string: split on spaces and
drop empty pieces. -/
def pySplit (s : String) : List String :=
  (s.splitOn " ").filter (fun w => w ≠ "")

/-- Embedding of `_calculate_similarity_reasons`.  The common-keyword
reason iterates a Python `set` intersection whose order is unspecified
(flagged as an open question in the spec); the embedding sorts the
common words alphabetically.  No theorem below depends on this field. -/
noncomputable def calculate_similarity_reasons (new_issue_title new_issue_description : String)
    (similar_issue : IssueReference) (similarity_score : ℝ) : List String :=
  let title_similarity := calculate_text_similarity
    (preprocess_text new_issue_title) (preprocess_text similar_issue.title)
  let r1 := if 0.5 < title_similarity then
      ["Similar titles (similarity: " ++ formatScore title_similarity ++ ")"]
    else []
  let r2 := if new_issue_description ≠ "" ∧ similar_issue.description ≠ "" then
      (let desc_similarity := calculate_text_similarity
        (preprocess_text new_issue_description) (preprocess_text similar_issue.description)
       if 0.3 < desc_similarity then
         ["Similar descriptions (similarity: " ++ formatScore desc_similarity ++ ")"]
       else [])
    else []
  let new_words := (pySplit (preprocess_text
    (new_issue_title ++ " " ++ new_issue_description))).dedup
  let existing_words := (pySplit (preprocess_text
    (similar_issue.title ++ " " ++ similar_issue.description))).dedup
  let common_words := sortBy strLeb (new_words.filter (fun w => w ∈ existing_words))
  let r3 := if 3 < common_words.length then
      (let important_words := common_words.filter (fun w => 3 < w.length)
       if important_words ≠ [] then
         ["Common keywords: " ++ String.intercalate ", " (important_words.take 5)]
       else [])
    else []
  let r4 := if 0.8 < similarity_score then ["Very high overall similarity score"]
    else if 0.6 < similarity_score then ["High overall similarity score"]
    else if 0.4 < similarity_score then ["Moderate overall similarity score"]
    else []
  r1 ++ r2 ++ r3 ++ r4

/-! ## `detect_duplicate` -/

/-- The open-status filter at the top of `detect_duplicate`:
`[issue for issue in existing_issues if issue.status.lower() == "open"]`. -/
def open_issues_of (existing_issues : List IssueReference) : List IssueReference :=
  existing_issues.filter (fun issue => pyLower issue.status == "open")

/-- The corpus a detection call vectorizes: the combined new-issue text
followed by the combined text of every candidate passed in
(`all_texts = [new_issue_text] + existing_texts`). -/
def detectCorpus (new_issue_title new_issue_description : String)
    (candidates : List IssueReference) : List String :=
  combine_new_issue_text new_issue_title new_issue_description ::
    candidates.map combine_issue_text

/-- The early-return result of `detect_duplicate` when no open issue is
left after filtering. -/
def noOpenIssuesResult : DuplicateDetectionResult :=
  { is_duplicate := false, duplicate_of := none, similarity_score := 0,
    similarity_reasons := [], confidence_score := 1,
    recommendation := "No open issues to compare against. This appears to be a new issue." }

/-- The fallback result built in the `except Exception as e` arm of
`detect_duplicate`. -/
def analysisFailedResult (e : String) : DuplicateDetectionResult :=
  { is_duplicate := false, duplicate_of := none, similarity_score := 0,
    similarity_reasons := [], confidence_score := 0,
    recommendation := "Unable to perform similarity analysis due to error: " ++ e ++
      ". Manual review required." }

/-- The main (`try`) body of `detect_duplicate` once vectorization has
succeeded with vocabulary `vocab`. -/
noncomputable def detectScoredResult (a : CosineDuplicateAnalyzer)
    (new_issue_title new_issue_description : String)
    (open_issues : List IssueReference) (vocab : List String) :
    DuplicateDetectionResult :=
  let all_texts := detectCorpus new_issue_title new_issue_description open_issues
  let similarities := querySimilarities mainVectorizer all_texts vocab
  let max_similarity_idx := argmaxIdx similarities
  let max_similarity_score := similarities.getD max_similarity_idx 0
  let most_similar_issue := open_issues.getD max_similarity_idx default
  let is_dup : Prop := a.similarity_threshold ≤ max_similarity_score
  let confidence_boosted := min (max_similarity_score * 1.2) 1
  let confidence_score :=
    if max_similarity_score < 0.3 then max_similarity_score else confidence_boosted
  let similarity_reasons := calculate_similarity_reasons
    new_issue_title new_issue_description most_similar_issue max_similarity_score
  let recommendation :=
    if is_dup then
      "This issue appears to be a duplicate of issue " ++ most_similar_issue.issue_id ++
        ". Consider linking to the original issue and closing this one."
    else if 0.5 < max_similarity_score then
      "This issue shows moderate similarity to issue " ++ most_similar_issue.issue_id ++
        ". Review both issues to determine if they are related or should be merged."
    else
      "This appears to be a new, unique issue."
  { is_duplicate := decide is_dup,
    duplicate_of := if is_dup then some most_similar_issue else none,
    similarity_score := max_similarity_score,
    similarity_reasons := similarity_reasons,
    confidence_score := confidence_score,
    recommendation := recommendation }

/-- Embedding of `CosineDuplicateAnalyzer.detect_duplicate`.  The
`try`/`except` around the vectorization is the `match` on
`fitVocabulary`; every failure is converted into the fallback result of
the `except Exception` arm. -/
noncomputable def detect_duplicate (a : CosineDuplicateAnalyzer)
    (new_issue_title new_issue_description : String)
    (existing_issues : List IssueReference) : DuplicateDetectionResult :=
  let open_issues := open_issues_of existing_issues
  if open_issues = [] then noOpenIssuesResult
  else
    match fitVocabulary mainVectorizer
        (detectCorpus new_issue_title new_issue_description open_issues) with
    | .error e => analysisFailedResult e
    | .ok vocab =>
      detectScoredResult a new_issue_title new_issue_description open_issues vocab

/-! ## `find_most_similar_issues` -/

/-- The ranking step of `find_most_similar_issues`: top-k indices are
`np.argsort(similarities)[::-1][:top_k]`, and only entries with
strictly positive score are appended to the result. -/
noncomputable def rankedResults (existing_issues : List IssueReference)
    (similarities : List ℝ) (top_k : ℕ) : List (IssueReference × ℝ) :=
  (((argsortAsc similarities).reverse.take top_k).filter
    (fun idx => decide (0 < similarities.getD idx 0))).map
    (fun idx => (existing_issues.getD idx default, similarities.getD idx 0))

/-- Embedding of `CosineDuplicateAnalyzer.find_most_similar_issues`:
no status filter (the whole candidate list enters the corpus); an empty
candidate list or any vectorization error yields `[]`. -/
noncomputable def find_most_similar_issues (_a : CosineDuplicateAnalyzer)
    (new_issue_title new_issue_description : String)
    (existing_issues : List IssueReference) (top_k : ℕ) :
    List (IssueReference × ℝ) :=
  if existing_issues = [] then []
  else
    match fitVocabulary mainVectorizer
        (detectCorpus new_issue_title new_issue_description existing_issues) with
    | .error _ => []
    | .ok vocab =>
      rankedResults existing_issues
        (querySimilarities mainVectorizer
          (detectCorpus new_issue_title new_issue_description existing_issues) vocab)
        top_k

/-! ## Basic facts about the similarity layer -/

/-! ## Concrete issues, corpora and specification-side definitions used below -/

/-- The single open candidate of the repository's own
`test_identical_issues` test (textually identical to the query of that
test). -/
def identicalTestIssue : IssueReference :=
  { issue_id := "ISSUE-001", title := "Test issue title",
    description := "Test issue description", status := "open",
    created_date := none, url := none }

/-- An open candidate with title "alpha beta". -/
def alphaOpenIssue : IssueReference :=
  { issue_id := "A-1", title := "alpha beta", description := "",
    status := "open", created_date := none, url := none }

/-- The similarity row a call computes: cosine similarities between the
query document and the combined text of each candidate in `cands`
(which is `open_issues_of issues` on the `detect_duplicate` path and
the full candidate list on the `find_most_similar_issues` path). -/
noncomputable def simsFor (t d : String) (cands : List IssueReference)
    (vocab : List String) : List ℝ :=
  querySimilarities mainVectorizer (detectCorpus t d cands) vocab

/-- `max_similarity_score` as `detect_duplicate` computes it: the entry
of the similarity row at `np.argmax`. -/
noncomputable def maxScoreFor (t d : String) (cands : List IssueReference)
    (vocab : List String) : ℝ :=
  (simsFor t d cands vocab).getD (argmaxIdx (simsFor t d cands vocab)) 0

/-- The fitted vocabulary shared by the small "alpha beta" / "gamma
delta" corpora below. -/
def vocabAB : List String :=
  ["alpha", "alpha beta", "beta", "beta alpha", "delta", "delta gamma",
   "gamma", "gamma delta"]

/-- A closed candidate textually identical to the query "alpha beta". -/
def alphaClosedIssue : IssueReference :=
  { issue_id := "C-1", title := "alpha beta", description := "",
    status := "closed", created_date := none, url := none }

/-- A closed candidate with unrelated text. -/
def gammaClosedIssue : IssueReference :=
  { issue_id := "D-1", title := "gamma delta", description := "",
    status := "closed", created_date := none, url := none }

/-- An open candidate with unrelated text ("gamma delta"). -/
def gammaOpenIssue : IssueReference :=
  { issue_id := "B-1", title := "gamma delta", description := "",
    status := "open", created_date := none, url := none }

/-- A second open candidate textually identical to `alphaOpenIssue`. -/
def alphaOpenIssue2 : IssueReference :=
  { issue_id := "A-2", title := "alpha beta", description := "",
    status := "open", created_date := none, url := none }

/-- The 3-document corpus of the closed-pair examples. -/
def docsAB3 : List String :=
  ["alpha beta alpha beta ", "alpha beta alpha beta ",
   "gamma delta gamma delta "]

/-- The 4-document corpus of the tie example. -/
def docsAB4 : List String :=
  ["alpha beta alpha beta ", "alpha beta alpha beta ",
   "alpha beta alpha beta ", "gamma delta gamma delta "]

/-- The 2-document corpus of the single-gamma example. -/
def docsAB2 : List String :=
  ["alpha beta alpha beta ", "gamma delta gamma delta "]

/-- Word-character runs joined by single spaces (the spec-level
description of the normalizer's output). -/
def joinWithSpace : List (List Char) → List Char
  | [] => []
  | r :: rs => r ++ (if rs.isEmpty then [] else ' ' :: joinWithSpace rs)

/-- The normalizer exactly as claim C3 words it: lowercase, replace
every character that is **not alphanumeric** and not whitespace
(underscore included among the replaced) by a single space, collapse
whitespace runs, trim.  This is the claim-side definition to compare
with `preprocess_text`. -/
def normalizeClaimed (text : String) : String :=
  if text = "" then ""
  else
    String.mk (stripChars (collapseWs ((text.toList.map Char.toLower).map
      (fun c => if !c.isAlphanum && !isSpaceChar c then ' ' else c))))

/-- The amended normalization contract: the output is the lowercased
input's maximal `\w`-runs (alphanumerics *and underscores* kept),
joined by single spaces. -/
def normalizeAmendedSpec (text : String) : String :=
  String.mk (joinWithSpace (wordRuns (text.toList.map Char.toLower)))

def wordOrSpace (l : List Char) : Prop :=
  ∀ c ∈ l, isWordChar c = true ∨ isSpaceChar c = true

/-- Bool-valued "empty or starts with a word character". -/
def wordHeadedB : List Char → Bool
  | [] => true
  | c :: _ => isWordChar c

/-- Right-trim: drop trailing whitespace. -/
def rstrip (l : List Char) : List Char :=
  (l.reverse.dropWhile (fun c => isSpaceChar c)).reverse

theorem docFrequency_le_length (cfg : VectorizerConfig) (docs : List String)
    (t : String) : docFrequency cfg docs t ≤ docs.length :=
  List.length_filter_le _ _

theorem one_le_idf (cfg : VectorizerConfig) (docs : List String) (t : String) :
    1 ≤ idf cfg docs t := by
  unfold idf
  have hd : (0 : ℝ) < 1 + docFrequency cfg docs t := by positivity
  have h1 : (1 : ℝ) ≤ (1 + docs.length) / (1 + docFrequency cfg docs t) := by
    rw [le_div_iff₀ hd, one_mul]
    have := docFrequency_le_length cfg docs t
    have : (docFrequency cfg docs t : ℝ) ≤ docs.length := by exact_mod_cast this
    linarith
  have := Real.log_nonneg h1
  linarith

theorem idf_pos (cfg : VectorizerConfig) (docs : List String) (t : String) :
    0 < idf cfg docs t :=
  lt_of_lt_of_le one_pos (one_le_idf cfg docs t)

theorem tfidfWeight_nonneg (cfg : VectorizerConfig) (docs : List String)
    (doc t : String) : 0 ≤ tfidfWeight cfg docs doc t :=
  mul_nonneg (Nat.cast_nonneg _) (idf_pos cfg docs t).le

theorem dotProd_nonneg (cfg : VectorizerConfig) (docs vocab : List String)
    (d e : String) : 0 ≤ dotProd cfg docs vocab d e :=
  Finset.sum_nonneg fun _ _ =>
    mul_nonneg (tfidfWeight_nonneg cfg docs d _) (tfidfWeight_nonneg cfg docs e _)

theorem dotProd_self_pos (cfg : VectorizerConfig) (docs vocab : List String)
    (d : String) (i : ℕ) (hi : i < vocab.length)
    (hc : 0 < featureCount cfg d (vocab.getD i "")) :
    0 < dotProd cfg docs vocab d d := by
  unfold dotProd
  have hw : 0 < tfidfWeight cfg docs d (vocab.getD i "") :=
    mul_pos (by exact_mod_cast hc) (idf_pos cfg docs _)
  refine Finset.sum_pos' (fun j _ =>
    mul_nonneg (tfidfWeight_nonneg cfg docs d _) (tfidfWeight_nonneg cfg docs d _)) ?_
  exact ⟨i, Finset.mem_range.mpr hi, mul_pos hw hw⟩

theorem cosineSim_nonneg (cfg : VectorizerConfig) (docs vocab : List String)
    (d e : String) : 0 ≤ cosineSim cfg docs vocab d e := by
  unfold cosineSim
  split
  · exact le_refl 0
  · exact div_nonneg (dotProd_nonneg cfg docs vocab d e)
      (mul_nonneg (Real.sqrt_nonneg _) (Real.sqrt_nonneg _))

theorem cosineSim_self (cfg : VectorizerConfig) (docs vocab : List String)
    (d : String) (h : dotProd cfg docs vocab d d ≠ 0) :
    cosineSim cfg docs vocab d d = 1 := by
  unfold cosineSim
  rw [if_neg (by simp [h]), Real.mul_self_sqrt (dotProd_nonneg cfg docs vocab d d)]
  exact div_self h

theorem cosineSim_eq_zero_of_dotProd_eq_zero (cfg : VectorizerConfig)
    (docs vocab : List String) (d e : String)
    (h : dotProd cfg docs vocab d e = 0) : cosineSim cfg docs vocab d e = 0 := by
  unfold cosineSim
  split
  · rfl
  · rw [h, zero_div]

theorem cosineSim_le_one (cfg : VectorizerConfig) (docs vocab : List String)
    (d e : String) : cosineSim cfg docs vocab d e ≤ 1 := by
  unfold cosineSim
  split
  · exact zero_le_one
  · rename_i hne
    push_neg at hne
    have hdd : 0 < dotProd cfg docs vocab d d :=
      (dotProd_nonneg cfg docs vocab d d).lt_of_ne (Ne.symm hne.1)
    have hee : 0 < dotProd cfg docs vocab e e :=
      (dotProd_nonneg cfg docs vocab e e).lt_of_ne (Ne.symm hne.2)
    rw [div_le_one (mul_pos (Real.sqrt_pos.mpr hdd) (Real.sqrt_pos.mpr hee))]
    have cs := Finset.sum_mul_sq_le_sq_mul_sq (Finset.range vocab.length)
      (fun i => tfidfWeight cfg docs d (vocab.getD i ""))
      (fun i => tfidfWeight cfg docs e (vocab.getD i ""))
    have hsq : dotProd cfg docs vocab d e ^ 2 ≤
        dotProd cfg docs vocab d d * dotProd cfg docs vocab e e := by
      unfold dotProd
      calc (∑ i ∈ Finset.range vocab.length,
            tfidfWeight cfg docs d (vocab.getD i "") *
              tfidfWeight cfg docs e (vocab.getD i "")) ^ 2
          ≤ (∑ i ∈ Finset.range vocab.length,
              tfidfWeight cfg docs d (vocab.getD i "") ^ 2) *
            ∑ i ∈ Finset.range vocab.length,
              tfidfWeight cfg docs e (vocab.getD i "") ^ 2 := cs
        _ = _ := by
            congr 1 <;> exact Finset.sum_congr rfl fun i _ => (pow_two _)
    have hx : dotProd cfg docs vocab d e ≤
        Real.sqrt (dotProd cfg docs vocab d d * dotProd cfg docs vocab e e) :=
      (Real.le_sqrt (dotProd_nonneg cfg docs vocab d e)
        (mul_nonneg hdd.le hee.le)).mpr hsq
    rwa [Real.sqrt_mul hdd.le] at hx

/-! ## Facts about `np.argmax` -/

theorem getD_mem {α : Type} (l : List α) (n : ℕ) (d : α) (h : n < l.length) :
    l.getD n d ∈ l := by
  induction l generalizing n with
  | nil => simp at h
  | cons a as ih =>
    match n with
    | 0 => simp
    | n + 1 =>
      simp only [List.getD_cons_succ]
      exact List.mem_cons_of_mem _ (ih n (by simpa using h))

theorem argmaxFrom_spec (xs : List ℝ) : ∀ (i best : ℕ) (bestVal : ℝ),
    (argmaxFrom i best bestVal xs = best ∧ ∀ x ∈ xs, x ≤ bestVal) ∨
    (∃ k, k < xs.length ∧ argmaxFrom i best bestVal xs = i + k ∧
      bestVal ≤ xs.getD k 0 ∧ ∀ x ∈ xs, x ≤ xs.getD k 0) := by
  induction xs with
  | nil =>
    intro i best bestVal
    exact Or.inl ⟨rfl, by simp⟩
  | cons x xs ih =>
    intro i best bestVal
    simp only [argmaxFrom]
    by_cases h : bestVal < x
    · rw [if_pos h]
      rcases ih (i + 1) i x with ⟨heq, hall⟩ | ⟨k, hk, heq, hle, hall⟩
      · refine Or.inr ⟨0, by simp, by simpa using heq, ?_, ?_⟩
        · simpa using h.le
        · intro y hy
          rcases List.mem_cons.mp hy with rfl | hy
          · simp
          · simpa using hall y hy
      · refine Or.inr ⟨k + 1, by simpa using Nat.succ_lt_succ hk, ?_, ?_, ?_⟩
        · rw [heq]; omega
        · simpa using (h.le.trans hle)
        · intro y hy
          rcases List.mem_cons.mp hy with rfl | hy
          · simpa using hle
          · simpa using hall y hy
    · rw [if_neg h]
      rcases ih (i + 1) best bestVal with ⟨heq, hall⟩ | ⟨k, hk, heq, hle, hall⟩
      · refine Or.inl ⟨heq, ?_⟩
        intro y hy
        rcases List.mem_cons.mp hy with rfl | hy
        · exact not_lt.mp h
        · exact hall y hy
      · refine Or.inr ⟨k + 1, by simpa using Nat.succ_lt_succ hk, ?_, ?_, ?_⟩
        · rw [heq]; omega
        · simpa using hle
        · intro y hy
          rcases List.mem_cons.mp hy with rfl | hy
          · simpa using ((not_lt.mp h).trans hle)
          · simpa using hall y hy

theorem argmaxIdx_lt_length (l : List ℝ) (h : l ≠ []) :
    argmaxIdx l < l.length := by
  match l with
  | [] => exact absurd rfl h
  | x :: xs =>
    simp only [argmaxIdx]
    rcases argmaxFrom_spec xs 1 0 x with ⟨heq, _⟩ | ⟨k, hk, heq, _, _⟩
    · rw [heq]; simp
    · rw [heq]; simp; omega

theorem getD_le_getD_argmaxIdx (l : List ℝ) (j : ℕ) (hj : j < l.length) :
    l.getD j 0 ≤ l.getD (argmaxIdx l) 0 := by
  match l with
  | [] => simp at hj
  | x :: xs =>
    simp only [argmaxIdx]
    rcases argmaxFrom_spec xs 1 0 x with ⟨heq, hall⟩ | ⟨k, hk, heq, hle, hall⟩
    · rw [heq]
      match j with
      | 0 => simp
      | j + 1 =>
        simp only [List.getD_cons_succ, List.getD_cons_zero]
        exact hall _ (getD_mem _ _ _ (by simpa using hj))
    · rw [heq]
      have h1k : (1 + k) = k + 1 := Nat.add_comm 1 k
      rw [h1k, List.getD_cons_succ]
      match j with
      | 0 => simpa using hle
      | j + 1 =>
        simp only [List.getD_cons_succ]
        exact hall _ (getD_mem _ _ _ (by simpa using hj))

/-! ## Path lemmas for `detect_duplicate` and `find_most_similar_issues` -/

theorem detect_duplicate_no_open (a : CosineDuplicateAnalyzer) (t d : String)
    (issues : List IssueReference) (h : open_issues_of issues = []) :
    detect_duplicate a t d issues = noOpenIssuesResult := by
  simp [detect_duplicate, h]

theorem detect_duplicate_fit_error (a : CosineDuplicateAnalyzer) (t d : String)
    (issues : List IssueReference) (e : String)
    (h1 : open_issues_of issues ≠ [])
    (h2 : fitVocabulary mainVectorizer (detectCorpus t d (open_issues_of issues)) =
      .error e) :
    detect_duplicate a t d issues = analysisFailedResult e := by
  simp [detect_duplicate, h1, h2]

theorem detect_duplicate_fit_ok (a : CosineDuplicateAnalyzer) (t d : String)
    (issues : List IssueReference) (vocab : List String)
    (h1 : open_issues_of issues ≠ [])
    (h2 : fitVocabulary mainVectorizer (detectCorpus t d (open_issues_of issues)) =
      .ok vocab) :
    detect_duplicate a t d issues = detectScoredResult a t d (open_issues_of issues) vocab := by
  simp [detect_duplicate, h1, h2]

theorem find_most_similar_empty (a : CosineDuplicateAnalyzer) (t d : String)
    (top_k : ℕ) : find_most_similar_issues a t d [] top_k = [] := by
  simp [find_most_similar_issues]

theorem find_most_similar_fit_error (a : CosineDuplicateAnalyzer) (t d : String)
    (issues : List IssueReference) (top_k : ℕ) (e : String)
    (h1 : issues ≠ [])
    (h2 : fitVocabulary mainVectorizer (detectCorpus t d issues) = .error e) :
    find_most_similar_issues a t d issues top_k = [] := by
  simp [find_most_similar_issues, h1, h2]

theorem find_most_similar_fit_ok (a : CosineDuplicateAnalyzer) (t d : String)
    (issues : List IssueReference) (top_k : ℕ) (vocab : List String)
    (h1 : issues ≠ [])
    (h2 : fitVocabulary mainVectorizer (detectCorpus t d issues) = .ok vocab) :
    find_most_similar_issues a t d issues top_k =
      rankedResults issues
        (querySimilarities mainVectorizer (detectCorpus t d issues) vocab) top_k := by
  simp [find_most_similar_issues, h1, h2]

/-! ## Concrete candidate issues used in the evaluations below -/

/-! ## Claim C6 -/

/-- C6: for every query, `detect_duplicate` against an empty candidate
list, or a candidate list in which no issue's status lowercases to
"open", returns `is_duplicate = false`, `similarity_score = 0.0`,
`confidence_score = 1.0`, and the no-open-issues recommendation. -/
theorem C6_empty_candidate_law (a : CosineDuplicateAnalyzer) (t d : String)
    (issues : List IssueReference)
    (h : issues = [] ∨ ∀ i ∈ issues, pyLower i.status ≠ "open") :
    (detect_duplicate a t d issues).is_duplicate = false ∧
    (detect_duplicate a t d issues).similarity_score = 0 ∧
    (detect_duplicate a t d issues).confidence_score = 1 ∧
    (detect_duplicate a t d issues).recommendation =
      "No open issues to compare against. This appears to be a new issue." := by
  have hh : open_issues_of issues = [] := by
    rcases h with rfl | h
    · rfl
    · unfold open_issues_of
      rw [List.filter_eq_nil_iff]
      intro i hi
      simpa using h i hi
  rw [detect_duplicate_no_open a t d issues hh]
  exact ⟨rfl, rfl, rfl, rfl⟩

/-- C6 witness: the empty-candidate case at a concrete query. -/
theorem C6_witness :
    (detect_duplicate (CosineDuplicateAnalyzer.init 0.6 0.6) "Login crash"
      "App crashes on login" []).is_duplicate = false ∧
    (detect_duplicate (CosineDuplicateAnalyzer.init 0.6 0.6) "Login crash"
      "App crashes on login" []).similarity_score = 0 ∧
    (detect_duplicate (CosineDuplicateAnalyzer.init 0.6 0.6) "Login crash"
      "App crashes on login" []).confidence_score = 1 := by
  have h := C6_empty_candidate_law (CosineDuplicateAnalyzer.init 0.6 0.6)
    "Login crash" "App crashes on login" [] (Or.inl rfl)
  exact ⟨h.1, h.2.1, h.2.2.1⟩

/-! ## Claim C5 -/

/-- C5: `detect_duplicate` is a total function (it never raises), and
whenever the vectorization step fails internally — modelled by
`fitVocabulary` returning an error, e.g. on a degenerate all-stopword
or fully pruned corpus — it returns the well-typed fallback with
`is_duplicate = false`, `similarity_score = 0.0`,
`confidence_score = 0.0`, and a recommendation saying the analysis
failed and manual review is required. -/
theorem C5_failure_absorbed (a : CosineDuplicateAnalyzer) (t d : String)
    (issues : List IssueReference) (e : String)
    (h1 : open_issues_of issues ≠ [])
    (h2 : fitVocabulary mainVectorizer (detectCorpus t d (open_issues_of issues)) =
      .error e) :
    (detect_duplicate a t d issues).is_duplicate = false ∧
    (detect_duplicate a t d issues).similarity_score = 0 ∧
    (detect_duplicate a t d issues).confidence_score = 0 ∧
    (detect_duplicate a t d issues).recommendation =
      "Unable to perform similarity analysis due to error: " ++ e ++
        ". Manual review required." := by
  rw [detect_duplicate_fit_error a t d issues e h1 h2]
  exact ⟨rfl, rfl, rfl, rfl⟩

/-- C5 witness: a degenerate corpus at a concrete input (a query
identical to the single open candidate: `max_df = 0.95` prunes every
feature of the 2-document corpus, sklearn raises, and the fallback is
returned). -/
theorem C5_witness :
    open_issues_of [alphaOpenIssue] ≠ [] ∧
    (detect_duplicate (CosineDuplicateAnalyzer.init 0.6 0.6) "alpha beta" ""
      [alphaOpenIssue]).similarity_score = 0 ∧
    (detect_duplicate (CosineDuplicateAnalyzer.init 0.6 0.6) "alpha beta" ""
      [alphaOpenIssue]).confidence_score = 0 := by
  have h1 : open_issues_of [alphaOpenIssue] ≠ [] := by decide
  have h2 : fitVocabulary mainVectorizer
      (detectCorpus "alpha beta" "" (open_issues_of [alphaOpenIssue])) =
      .error "After pruning, no terms remain. Try a lower min_df or a higher max_df." := by
    decide
  have h := C5_failure_absorbed (CosineDuplicateAnalyzer.init 0.6 0.6)
    "alpha beta" "" [alphaOpenIssue] _ h1 h2
  exact ⟨h1, h.2.1, h.2.2.1⟩

/-! ## Claim C2 -/

/-- C2 counterexample: a `similarity_threshold`/`confidence_threshold`
of 2 lies outside `[0, 1]`, yet construction succeeds and stores both
verbatim — `__init__` performs no validation, so nothing is "rejected
at construction time". -/
theorem C2_out_of_range_accepted :
    (CosineDuplicateAnalyzer.init 2 2).similarity_threshold = 2 ∧
    (CosineDuplicateAnalyzer.init 2 2).confidence_threshold = 2 ∧
    ¬ ((2 : ℝ) ≤ 1) :=
  ⟨rfl, rfl, by norm_num⟩

/-- C2 amended: thresholds supplied at construction are stored verbatim
with no range validation of any kind; no threshold-range rejection
happens at construction or during a detection call (`detect_duplicate`
is total in the threshold values). -/
theorem C2_thresholds_stored_unvalidated (s c : ℝ) :
    (CosineDuplicateAnalyzer.init s c).similarity_threshold = s ∧
    (CosineDuplicateAnalyzer.init s c).confidence_threshold = c :=
  ⟨rfl, rfl⟩

/-! ## Claim C1 -/

/-- C1 (evaluation at the failing input): on the repository's own
`test_identical_issues` input — a query character-for-character
identical to the single open candidate — `max_df = 0.95` prunes every
feature of the 2-document corpus (each has document frequency
2 > 0.95·2), sklearn raises, and `detect_duplicate` returns the
analysis-failed fallback: `similarity_score = 0.0` and
`is_duplicate = false`, not `> 0.8` and `True` as the claim and the
repository's test assert. -/
theorem C1_identical_single_candidate_eval :
    detect_duplicate (CosineDuplicateAnalyzer.init 0.6 0.6) "Test issue title"
        "Test issue description" [identicalTestIssue] =
      analysisFailedResult
        "After pruning, no terms remain. Try a lower min_df or a higher max_df." ∧
    (detect_duplicate (CosineDuplicateAnalyzer.init 0.6 0.6) "Test issue title"
      "Test issue description" [identicalTestIssue]).similarity_score = 0 ∧
    (detect_duplicate (CosineDuplicateAnalyzer.init 0.6 0.6) "Test issue title"
      "Test issue description" [identicalTestIssue]).is_duplicate = false ∧
    ¬ (0.8 < (detect_duplicate (CosineDuplicateAnalyzer.init 0.6 0.6)
      "Test issue title" "Test issue description"
      [identicalTestIssue]).similarity_score) := by
  have h1 : open_issues_of [identicalTestIssue] ≠ [] := by decide
  have h2 : fitVocabulary mainVectorizer
      (detectCorpus "Test issue title" "Test issue description"
        (open_issues_of [identicalTestIssue])) =
      .error "After pruning, no terms remain. Try a lower min_df or a higher max_df." := by
    decide
  have h := detect_duplicate_fit_error (CosineDuplicateAnalyzer.init 0.6 0.6)
    "Test issue title" "Test issue description" [identicalTestIssue] _ h1 h2
  rw [h]
  refine ⟨rfl, rfl, rfl, ?_⟩
  show ¬ ((0.8 : ℝ) < 0)
  norm_num

/-! ## Named pipeline stages (used to state the remaining claims) -/

theorem simsFor_length (t d : String) (cands : List IssueReference)
    (vocab : List String) : (simsFor t d cands vocab).length = cands.length := by
  simp [simsFor, querySimilarities, detectCorpus]

/-- The four fields of the scored result, written through the named
pipeline stages (each holds by unfolding `detectScoredResult`). -/
theorem detectScoredResult_similarity_score (a : CosineDuplicateAnalyzer)
    (t d : String) (open_issues : List IssueReference) (vocab : List String) :
    (detectScoredResult a t d open_issues vocab).similarity_score =
      maxScoreFor t d open_issues vocab := rfl

theorem detectScoredResult_is_duplicate (a : CosineDuplicateAnalyzer)
    (t d : String) (open_issues : List IssueReference) (vocab : List String) :
    (detectScoredResult a t d open_issues vocab).is_duplicate =
      decide (a.similarity_threshold ≤ maxScoreFor t d open_issues vocab) := rfl

theorem detectScoredResult_duplicate_of (a : CosineDuplicateAnalyzer)
    (t d : String) (open_issues : List IssueReference) (vocab : List String) :
    (detectScoredResult a t d open_issues vocab).duplicate_of =
      (if a.similarity_threshold ≤ maxScoreFor t d open_issues vocab then
        some (open_issues.getD (argmaxIdx (simsFor t d open_issues vocab)) default)
      else none) := rfl

theorem detectScoredResult_confidence_score (a : CosineDuplicateAnalyzer)
    (t d : String) (open_issues : List IssueReference) (vocab : List String) :
    (detectScoredResult a t d open_issues vocab).confidence_score =
      (if maxScoreFor t d open_issues vocab < 0.3 then
        maxScoreFor t d open_issues vocab
      else min (maxScoreFor t d open_issues vocab * 1.2) 1) := rfl

/-! ## Claim C10 -/

/-- C10: `find_most_similar_issues` is a total function (it never
raises); it returns `[]` on an empty candidate list, and returns `[]`
(rather than propagating) whenever the vectorization step fails
internally. -/
theorem C10_fms_total_safe (a : CosineDuplicateAnalyzer) (t d : String)
    (issues : List IssueReference) (top_k : ℕ) :
    (issues = [] → find_most_similar_issues a t d issues top_k = []) ∧
    (∀ e, fitVocabulary mainVectorizer (detectCorpus t d issues) = .error e →
      find_most_similar_issues a t d issues top_k = []) := by
  constructor
  · rintro rfl
    exact find_most_similar_empty a t d top_k
  · intro e he
    by_cases h : issues = []
    · subst h
      exact find_most_similar_empty a t d top_k
    · exact find_most_similar_fit_error a t d issues top_k e h he

/-- C10 witness: the empty-candidate case and a concrete degenerate
corpus (query identical to the sole candidate) both yield `[]`. -/
theorem C10_witness :
    find_most_similar_issues (CosineDuplicateAnalyzer.init 0.6 0.6) "crash bug"
      "" [] 5 = [] ∧
    find_most_similar_issues (CosineDuplicateAnalyzer.init 0.6 0.6) "alpha beta"
      "" [alphaOpenIssue] 5 = [] := by
  constructor
  · exact (C10_fms_total_safe (CosineDuplicateAnalyzer.init 0.6 0.6) "crash bug"
      "" [] 5).1 rfl
  · refine (C10_fms_total_safe (CosineDuplicateAnalyzer.init 0.6 0.6) "alpha beta"
      "" [alphaOpenIssue] 5).2
      "After pruning, no terms remain. Try a lower min_df or a higher max_df." ?_
    decide

/-! ## Evaluation helpers for concrete corpora -/

theorem tfidfWeight_eq_zero (cfg : VectorizerConfig) (docs : List String)
    (doc t : String) (h : featureCount cfg doc t = 0) :
    tfidfWeight cfg docs doc t = 0 := by
  unfold tfidfWeight
  rw [h]
  simp

theorem dotProd_eq_zero_of_disjoint (cfg : VectorizerConfig)
    (docs vocab : List String) (d e : String)
    (h : ∀ t ∈ vocab, featureCount cfg d t = 0 ∨ featureCount cfg e t = 0) :
    dotProd cfg docs vocab d e = 0 := by
  unfold dotProd
  apply Finset.sum_eq_zero
  intro i hi
  have ht : vocab.getD i "" ∈ vocab := getD_mem _ _ _ (Finset.mem_range.mp hi)
  rcases h _ ht with h0 | h0
  · rw [tfidfWeight_eq_zero cfg docs d _ h0, zero_mul]
  · rw [tfidfWeight_eq_zero cfg docs e _ h0, mul_zero]

/-! ## Claim C8 -/

/-- C8: on the scoring path (at least one open candidate, vectorization
succeeded), the returned `similarity_score` is the maximum cosine
similarity over the open candidates (`maxScoreFor`, which bounds every
entry of the similarity row); `confidence_score` equals `max_score`
when `max_score < 0.3` and `min(max_score * 1.2, 1.0)` otherwise; and
`is_duplicate` holds iff `max_score >= similarity_threshold`
(inclusive boundary). -/
theorem C8_scoring_formula (a : CosineDuplicateAnalyzer) (t d : String)
    (issues : List IssueReference) (vocab : List String)
    (h1 : open_issues_of issues ≠ [])
    (h2 : fitVocabulary mainVectorizer (detectCorpus t d (open_issues_of issues)) =
      .ok vocab) :
    (∀ j < (simsFor t d (open_issues_of issues) vocab).length,
      (simsFor t d (open_issues_of issues) vocab).getD j 0 ≤
        maxScoreFor t d (open_issues_of issues) vocab) ∧
    (detect_duplicate a t d issues).similarity_score =
      maxScoreFor t d (open_issues_of issues) vocab ∧
    (detect_duplicate a t d issues).confidence_score =
      (if maxScoreFor t d (open_issues_of issues) vocab < 0.3 then
        maxScoreFor t d (open_issues_of issues) vocab
       else min (maxScoreFor t d (open_issues_of issues) vocab * 1.2) 1) ∧
    ((detect_duplicate a t d issues).is_duplicate = true ↔
      a.similarity_threshold ≤ maxScoreFor t d (open_issues_of issues) vocab) := by
  rw [detect_duplicate_fit_ok a t d issues vocab h1 h2]
  refine ⟨fun j hj => getD_le_getD_argmaxIdx _ j hj, rfl, rfl, ?_⟩
  exact ⟨fun h => of_decide_eq_true h, fun h => decide_eq_true h⟩

/-! ## Claim C9 -/

set_option maxHeartbeats 1600000 in
/-- C9: `duplicate_of` is `none` exactly when `is_duplicate` is false;
and whenever it is `some iss`, the result is a duplicate and `iss` is
the open-status candidate (an entry of `open_issues_of issues`, at the
`np.argmax` index) whose similarity equals the maximal score of the
similarity row. -/
theorem C9_duplicate_of_consistency (a : CosineDuplicateAnalyzer) (t d : String)
    (issues : List IssueReference) :
    ((detect_duplicate a t d issues).is_duplicate = false ↔
      (detect_duplicate a t d issues).duplicate_of = none) ∧
    (∀ iss, (detect_duplicate a t d issues).duplicate_of = some iss →
      (detect_duplicate a t d issues).is_duplicate = true ∧
      iss ∈ open_issues_of issues ∧
      ∃ vocab, fitVocabulary mainVectorizer
          (detectCorpus t d (open_issues_of issues)) = .ok vocab ∧
        ∃ idx, idx < (open_issues_of issues).length ∧
          (open_issues_of issues).getD idx default = iss ∧
          (∀ j < (simsFor t d (open_issues_of issues) vocab).length,
            (simsFor t d (open_issues_of issues) vocab).getD j 0 ≤
              (simsFor t d (open_issues_of issues) vocab).getD idx 0)) := by
  by_cases hopen : open_issues_of issues = []
  · rw [detect_duplicate_no_open a t d issues hopen]
    refine ⟨by simp [noOpenIssuesResult], ?_⟩
    intro iss hsome
    simp [noOpenIssuesResult] at hsome
  · cases hfit : fitVocabulary mainVectorizer
        (detectCorpus t d (open_issues_of issues)) with
    | error e =>
      rw [detect_duplicate_fit_error a t d issues e hopen hfit]
      refine ⟨by simp [analysisFailedResult], ?_⟩
      intro iss hsome
      simp [analysisFailedResult] at hsome
    | ok vocab =>
      rw [detect_duplicate_fit_ok a t d issues vocab hopen hfit,
        detectScoredResult_is_duplicate, detectScoredResult_duplicate_of]
      have hlen : (simsFor t d (open_issues_of issues) vocab).length =
          (open_issues_of issues).length := simsFor_length t d _ vocab
      have hne : simsFor t d (open_issues_of issues) vocab ≠ [] := by
        intro hnil
        apply hopen
        apply List.length_eq_zero.mp
        rw [← hlen, hnil, List.length_nil]
      by_cases hdup : a.similarity_threshold ≤
          maxScoreFor t d (open_issues_of issues) vocab
      · have hbd : decide (a.similarity_threshold ≤
            maxScoreFor t d (open_issues_of issues) vocab) = true :=
          decide_eq_true hdup
        rw [hbd, if_pos hdup]
        constructor
        · exact ⟨fun h => Bool.noConfusion h, fun h => Option.noConfusion h⟩
        · intro iss hsome
          have hiss := Option.some.inj hsome
          have hidx : argmaxIdx (simsFor t d (open_issues_of issues) vocab) <
              (open_issues_of issues).length := by
            rw [← hlen]
            exact argmaxIdx_lt_length _ hne
          refine ⟨rfl, ?_, vocab, rfl,
            argmaxIdx (simsFor t d (open_issues_of issues) vocab), hidx, hiss, ?_⟩
          · rw [← hiss]
            exact getD_mem _ _ _ hidx
          · intro j hj
            exact getD_le_getD_argmaxIdx _ j hj
      · have hbd : decide (a.similarity_threshold ≤
            maxScoreFor t d (open_issues_of issues) vocab) = false :=
          decide_eq_false hdup
        rw [hbd, if_neg hdup]
        constructor
        · exact ⟨fun _ => rfl, fun _ => rfl⟩
        · intro iss hsome
          exact Option.noConfusion hsome

/-- C9 witness: at a concrete non-duplicate call (empty candidate
list), `duplicate_of` is `none`. -/
theorem C9_witness :
    (detect_duplicate (CosineDuplicateAnalyzer.init 0.7 0.7) "Add dark mode"
      "Users want a dark theme option" []).duplicate_of = none := by
  refine (C9_duplicate_of_consistency (CosineDuplicateAnalyzer.init 0.7 0.7)
    "Add dark mode" "Users want a dark theme option" []).1.mp ?_
  rw [detect_duplicate_no_open (CosineDuplicateAnalyzer.init 0.7 0.7)
    "Add dark mode" "Users want a dark theme option" [] rfl]
  rfl

/-! ## Claim C7 -/

theorem sims_closed_pair :
    simsFor "alpha beta" "" [alphaClosedIssue, gammaClosedIssue] vocabAB = [1, 0] := by
  have hq : combine_new_issue_text "alpha beta" "" = "alpha beta alpha beta " := by decide
  have hA : combine_issue_text alphaClosedIssue = "alpha beta alpha beta " := by decide
  have hG : combine_issue_text gammaClosedIssue = "gamma delta gamma delta " := by decide
  have h1 : cosineSim mainVectorizer docsAB3 vocabAB
      "alpha beta alpha beta " "alpha beta alpha beta " = 1 := by
    apply cosineSim_self
    refine (dotProd_self_pos mainVectorizer docsAB3 vocabAB
      "alpha beta alpha beta " 0 (by decide) (by decide)).ne'
  have h2 : cosineSim mainVectorizer docsAB3 vocabAB
      "alpha beta alpha beta " "gamma delta gamma delta " = 0 := by
    apply cosineSim_eq_zero_of_dotProd_eq_zero
    apply dotProd_eq_zero_of_disjoint
    decide
  unfold simsFor querySimilarities detectCorpus
  simp only [List.map_cons, List.map_nil, hq, hA, hG]
  show [cosineSim mainVectorizer docsAB3 vocabAB "alpha beta alpha beta "
      "alpha beta alpha beta ",
    cosineSim mainVectorizer docsAB3 vocabAB "alpha beta alpha beta "
      "gamma delta gamma delta "] = [1, 0]
  rw [h1, h2]

theorem ranked_closed_pair :
    rankedResults [alphaClosedIssue, gammaClosedIssue] [1, 0] 5 =
      [(alphaClosedIssue, 1)] := by
  have hg0 : ([(1 : ℝ), 0]).getD 0 0 = 1 := rfl
  have hg1 : ([(1 : ℝ), 0]).getD 1 0 = 0 := rfl
  have h01 : ¬ idxLe [(1 : ℝ), 0] 0 1 := by
    unfold idxLe
    rw [hg0, hg1]
    norm_num
  have hsort : argsortAsc [(1 : ℝ), 0] = [1, 0] := by
    unfold argsortAsc
    rw [show List.range ([(1 : ℝ), 0]).length = [0, 1] from rfl]
    simp only [List.insertionSort, List.orderedInsert]
    rw [if_neg h01]
  have hf0 : (decide (0 < ([(1 : ℝ), 0]).getD 0 0)) = true :=
    decide_eq_true (by rw [hg0]; norm_num)
  have hf1 : (decide (0 < ([(1 : ℝ), 0]).getD 1 0)) = false :=
    decide_eq_false (by rw [hg1]; norm_num)
  unfold rankedResults
  rw [hsort,
    show ([1, 0] : List ℕ).reverse = [0, 1] from rfl,
    show ([0, 1] : List ℕ).take 5 = [0, 1] from rfl,
    List.filter_cons, List.filter_cons, List.filter_nil, hf0, hf1]
  simp only [if_true, if_false, List.map_cons, List.map_nil]
  rw [hg0]
  rfl

/-- C7: (1) `detect_duplicate` depends only on the open-status
candidates — filtering the input list to open issues first does not
change its result; (2) a query against a sole candidate whose status
does not lowercase to "open" is never classified a duplicate and gets
`similarity_score = 0.0`; (3) `find_most_similar_issues` applies no
status filter: on a closed-only candidate pair it returns the closed
candidate textually identical to the query (score 1), while (4)
`detect_duplicate` on the same input yields `similarity_score = 0.0`
and `is_duplicate = false`. -/
theorem C7_open_filter_asymmetry :
    (∀ (a : CosineDuplicateAnalyzer) (t d : String) (issues : List IssueReference),
      detect_duplicate a t d issues =
        detect_duplicate a t d
          (issues.filter (fun i => pyLower i.status == "open"))) ∧
    (∀ (a : CosineDuplicateAnalyzer) (t d : String) (iss : IssueReference),
      pyLower iss.status ≠ "open" →
      (detect_duplicate a t d [iss]).is_duplicate = false ∧
      (detect_duplicate a t d [iss]).similarity_score = 0) ∧
    (find_most_similar_issues (CosineDuplicateAnalyzer.init 0.6 0.6) "alpha beta"
      "" [alphaClosedIssue, gammaClosedIssue] 5 = [(alphaClosedIssue, 1)]) ∧
    ((detect_duplicate (CosineDuplicateAnalyzer.init 0.6 0.6) "alpha beta" ""
      [alphaClosedIssue, gammaClosedIssue]).similarity_score = 0 ∧
     (detect_duplicate (CosineDuplicateAnalyzer.init 0.6 0.6) "alpha beta" ""
      [alphaClosedIssue, gammaClosedIssue]).is_duplicate = false) := by
  refine ⟨?_, ?_, ?_, ?_⟩
  · intro a t d issues
    have hff : open_issues_of
        (issues.filter (fun i => pyLower i.status == "open")) =
        open_issues_of issues := by
      unfold open_issues_of
      rw [List.filter_filter]
      simp
    by_cases hopen : open_issues_of issues = []
    · rw [detect_duplicate_no_open a t d issues hopen,
        detect_duplicate_no_open a t d _ (hff.trans hopen)]
    · have hopen2 : open_issues_of
          (issues.filter (fun i => pyLower i.status == "open")) ≠ [] := by
        rw [hff]; exact hopen
      cases hfit : fitVocabulary mainVectorizer
          (detectCorpus t d (open_issues_of issues)) with
      | error e =>
        have hfit2 : fitVocabulary mainVectorizer (detectCorpus t d
            (open_issues_of (issues.filter (fun i => pyLower i.status == "open")))) =
            .error e := by
          rw [hff]; exact hfit
        rw [detect_duplicate_fit_error a t d issues e hopen hfit,
          detect_duplicate_fit_error a t d _ e hopen2 hfit2]
      | ok vocab =>
        have hfit2 : fitVocabulary mainVectorizer (detectCorpus t d
            (open_issues_of (issues.filter (fun i => pyLower i.status == "open")))) =
            .ok vocab := by
          rw [hff]; exact hfit
        rw [detect_duplicate_fit_ok a t d issues vocab hopen hfit,
          detect_duplicate_fit_ok a t d _ vocab hopen2 hfit2, hff]
  · intro a t d iss h
    have hp : (pyLower iss.status == "open") = false :=
      beq_eq_false_iff_ne.mpr h
    have hopen : open_issues_of [iss] = [] := by
      unfold open_issues_of
      rw [List.filter_cons, hp, if_neg Bool.false_ne_true, List.filter_nil]
    rw [detect_duplicate_no_open a t d [iss] hopen]
    exact ⟨rfl, rfl⟩
  · have h2 : fitVocabulary mainVectorizer
        (detectCorpus "alpha beta" "" [alphaClosedIssue, gammaClosedIssue]) =
        .ok vocabAB := by decide
    rw [find_most_similar_fit_ok (CosineDuplicateAnalyzer.init 0.6 0.6)
      "alpha beta" "" [alphaClosedIssue, gammaClosedIssue] 5 vocabAB
      (by decide) h2]
    rw [show querySimilarities mainVectorizer
        (detectCorpus "alpha beta" "" [alphaClosedIssue, gammaClosedIssue]) vocabAB =
        simsFor "alpha beta" "" [alphaClosedIssue, gammaClosedIssue] vocabAB from rfl]
    rw [sims_closed_pair]
    exact ranked_closed_pair
  · have hopen : open_issues_of [alphaClosedIssue, gammaClosedIssue] = [] := by
      decide
    rw [detect_duplicate_no_open (CosineDuplicateAnalyzer.init 0.6 0.6)
      "alpha beta" "" [alphaClosedIssue, gammaClosedIssue] hopen]
    exact ⟨rfl, rfl⟩

/-- C7 witness: part (2) applied at a concrete closed candidate. -/
theorem C7_witness :
    (detect_duplicate (CosineDuplicateAnalyzer.init 0.6 0.6) "database timeout"
      "connection times out" [gammaClosedIssue]).is_duplicate = false ∧
    (detect_duplicate (CosineDuplicateAnalyzer.init 0.6 0.6) "database timeout"
      "connection times out" [gammaClosedIssue]).similarity_score = 0 :=
  (C7_open_filter_asymmetry).2.1 (CosineDuplicateAnalyzer.init 0.6 0.6)
    "database timeout" "connection times out" gammaClosedIssue (by decide)

/-! ## Claim C4: shape of the top-k ranking -/

theorem map_getD_range {α : Type} (l : List α) (dflt : α) :
    (List.range l.length).map (fun i => l.getD i dflt) = l := by
  induction l with
  | nil => simp
  | cons a as ih =>
    rw [List.length_cons, List.range_succ_eq_map, List.map_cons]
    simp only [List.getD_cons_zero]
    congr 1
    rw [List.map_map]
    have hcomp : ((fun i => (a :: as).getD i dflt) ∘ Nat.succ) =
        (fun i => as.getD i dflt) := by
      funext i
      simp [List.getD_cons_succ]
    rw [hcomp, ih]

theorem argsortAsc_sorted (l : List ℝ) :
    List.Sorted (idxLe l) (argsortAsc l) :=
  List.sorted_insertionSort _ _

theorem argsortAsc_perm (l : List ℝ) :
    List.Perm (argsortAsc l) (List.range l.length) :=
  List.perm_insertionSort _ _

/-- The filtered top-k index list is pairwise reverse-ordered under the
stable argsort relation: an earlier entry has a strictly larger score,
or an equal score and a larger input index (ties come out in reverse
input order because the ascending argsort is reversed). -/
theorem topFiltered_pairwise (sims : List ℝ) (k : ℕ) :
    (((argsortAsc sims).reverse.take k).filter
      (fun idx => decide (0 < sims.getD idx 0))).Pairwise
      (fun i j => idxLe sims j i) := by
  have h1 : (argsortAsc sims).reverse.Pairwise (fun i j => idxLe sims j i) := by
    rw [List.pairwise_reverse]
    exact argsortAsc_sorted sims
  have h2 : ((argsortAsc sims).reverse.take k).Pairwise
      (fun i j => idxLe sims j i) :=
    h1.sublist (List.take_sublist k _)
  exact h2.filter _

theorem rankedResults_pairwise (issues : List IssueReference) (sims : List ℝ)
    (k : ℕ) :
    (rankedResults issues sims k).Pairwise (fun p q => q.2 ≤ p.2) := by
  unfold rankedResults
  rw [List.pairwise_map]
  refine (topFiltered_pairwise sims k).imp ?_
  intro i j hij
  rcases hij with hlt | ⟨heq, _⟩
  · exact hlt.le
  · exact heq.le

theorem rankedResults_length_le (issues : List IssueReference) (sims : List ℝ)
    (k : ℕ) : (rankedResults issues sims k).length ≤ k := by
  unfold rankedResults
  rw [List.length_map]
  calc ((((argsortAsc sims).reverse.take k).filter
        (fun idx => decide (0 < sims.getD idx 0)))).length
      ≤ ((argsortAsc sims).reverse.take k).length := List.length_filter_le _ _
    _ ≤ k := by rw [List.length_take]; exact min_le_left _ _

theorem rankedResults_pos (issues : List IssueReference) (sims : List ℝ)
    (k : ℕ) : ∀ p ∈ rankedResults issues sims k, 0 < p.2 := by
  unfold rankedResults
  intro p hp
  rcases List.mem_map.mp hp with ⟨idx, hidx, rfl⟩
  exact of_decide_eq_true (List.mem_filter.mp hidx).2

theorem rankedResults_length_le_countP (issues : List IssueReference)
    (sims : List ℝ) (k : ℕ) :
    (rankedResults issues sims k).length ≤
      sims.countP (fun s => decide (0 < s)) := by
  unfold rankedResults
  rw [List.length_map]
  have hsub : List.Sublist
      (((argsortAsc sims).reverse.take k).filter
        (fun idx => decide (0 < sims.getD idx 0)))
      ((argsortAsc sims).reverse.filter
        (fun idx => decide (0 < sims.getD idx 0))) :=
    (List.take_sublist k _).filter _
  have h1 := hsub.length_le
  have hperm : List.Perm (argsortAsc sims).reverse (List.range sims.length) :=
    (List.reverse_perm _).trans (argsortAsc_perm sims)
  have h2 : (((argsortAsc sims).reverse.filter
        (fun idx => decide (0 < sims.getD idx 0)))).length =
      (((List.range sims.length).filter
        (fun idx => decide (0 < sims.getD idx 0)))).length :=
    (hperm.filter _).length_eq
  have h3 : (((List.range sims.length).filter
        (fun idx => decide (0 < sims.getD idx 0)))).length =
      sims.countP (fun s => decide (0 < s)) := by
    rw [← List.countP_eq_length_filter]
    conv_rhs => rw [← map_getD_range sims 0]
    rw [List.countP_map]
    rfl
  calc (((argsortAsc sims).reverse.take k).filter
        (fun idx => decide (0 < sims.getD idx 0))).length
      ≤ _ := h1
    _ = _ := h2
    _ = _ := h3

/-- C4 amended: `find_most_similar_issues` returns at most
`min(top_k, number of candidates with nonzero similarity)` entries, all
with strictly positive score, in non-increasing score order; among
candidates with exactly equal scores the one with the *higher* input
index is ranked first (the code reverses a stable ascending argsort, so
ties come out in reverse input order — not lowest-index-first as the
claim stated). -/
theorem C4_top_k_shape (a : CosineDuplicateAnalyzer) (t d : String)
    (issues : List IssueReference) (top_k : ℕ) :
    (find_most_similar_issues a t d issues top_k).length ≤ top_k ∧
    (∀ p ∈ find_most_similar_issues a t d issues top_k, 0 < p.2) ∧
    (find_most_similar_issues a t d issues top_k).Pairwise
      (fun p q => q.2 ≤ p.2) ∧
    (∀ vocab, issues ≠ [] →
      fitVocabulary mainVectorizer (detectCorpus t d issues) = .ok vocab →
      (find_most_similar_issues a t d issues top_k).length ≤
        (simsFor t d issues vocab).countP (fun s => decide (0 < s)) ∧
      (((argsortAsc (simsFor t d issues vocab)).reverse.take top_k).filter
        (fun idx => decide (0 < (simsFor t d issues vocab).getD idx 0))).Pairwise
        (fun i j => idxLe (simsFor t d issues vocab) j i)) := by
  by_cases hnil : issues = []
  · subst hnil
    rw [find_most_similar_empty a t d top_k]
    refine ⟨by simp, by simp, by simp, ?_⟩
    intro vocab hne _
    exact absurd rfl hne
  · cases hfit : fitVocabulary mainVectorizer (detectCorpus t d issues) with
    | error e =>
      rw [find_most_similar_fit_error a t d issues top_k e hnil hfit]
      refine ⟨by simp, by simp, by simp, ?_⟩
      intro vocab _ hok
      exact absurd hok (by simp)
    | ok vocab0 =>
      rw [find_most_similar_fit_ok a t d issues top_k vocab0 hnil hfit]
      rw [show querySimilarities mainVectorizer (detectCorpus t d issues) vocab0 =
        simsFor t d issues vocab0 from rfl]
      refine ⟨rankedResults_length_le _ _ _, rankedResults_pos _ _ _,
        rankedResults_pairwise _ _ _, ?_⟩
      intro vocab _ hok
      have hv : vocab = vocab0 := (Except.ok.inj hok).symm
      subst hv
      exact ⟨rankedResults_length_le_countP _ _ _, topFiltered_pairwise _ _⟩

/-! ## Claim C4: the tie-order counterexample -/

theorem sims_tie_triple :
    simsFor "alpha beta" "" [alphaOpenIssue, alphaOpenIssue2, gammaOpenIssue]
      vocabAB = [1, 1, 0] := by
  have hq : combine_new_issue_text "alpha beta" "" = "alpha beta alpha beta " := by decide
  have hA : combine_issue_text alphaOpenIssue = "alpha beta alpha beta " := by decide
  have hA2 : combine_issue_text alphaOpenIssue2 = "alpha beta alpha beta " := by decide
  have hG : combine_issue_text gammaOpenIssue = "gamma delta gamma delta " := by decide
  have h1 : cosineSim mainVectorizer docsAB4 vocabAB
      "alpha beta alpha beta " "alpha beta alpha beta " = 1 := by
    apply cosineSim_self
    exact (dotProd_self_pos mainVectorizer docsAB4 vocabAB
      "alpha beta alpha beta " 0 (by decide) (by decide)).ne'
  have h2 : cosineSim mainVectorizer docsAB4 vocabAB
      "alpha beta alpha beta " "gamma delta gamma delta " = 0 := by
    apply cosineSim_eq_zero_of_dotProd_eq_zero
    apply dotProd_eq_zero_of_disjoint
    decide
  unfold simsFor querySimilarities detectCorpus
  simp only [List.map_cons, List.map_nil, hq, hA, hA2, hG]
  show [cosineSim mainVectorizer docsAB4 vocabAB "alpha beta alpha beta "
      "alpha beta alpha beta ",
    cosineSim mainVectorizer docsAB4 vocabAB "alpha beta alpha beta "
      "alpha beta alpha beta ",
    cosineSim mainVectorizer docsAB4 vocabAB "alpha beta alpha beta "
      "gamma delta gamma delta "] = [1, 1, 0]
  rw [h1, h2]

theorem ranked_tie_triple :
    rankedResults [alphaOpenIssue, alphaOpenIssue2, gammaOpenIssue]
      [1, 1, 0] 5 = [(alphaOpenIssue2, 1), (alphaOpenIssue, 1)] := by
  have hg0 : ([(1 : ℝ), 1, 0]).getD 0 0 = 1 := rfl
  have hg1 : ([(1 : ℝ), 1, 0]).getD 1 0 = 1 := rfl
  have hg2 : ([(1 : ℝ), 1, 0]).getD 2 0 = 0 := rfl
  have h12 : ¬ idxLe [(1 : ℝ), 1, 0] 1 2 := by
    unfold idxLe
    rw [hg1, hg2]
    norm_num
  have h02 : ¬ idxLe [(1 : ℝ), 1, 0] 0 2 := by
    unfold idxLe
    rw [hg0, hg2]
    norm_num
  have h01 : idxLe [(1 : ℝ), 1, 0] 0 1 := by
    unfold idxLe
    rw [hg0, hg1]
    norm_num
  have hsort : argsortAsc [(1 : ℝ), 1, 0] = [2, 0, 1] := by
    unfold argsortAsc
    rw [show List.range ([(1 : ℝ), 1, 0]).length = [0, 1, 2] from rfl]
    rw [show List.insertionSort (idxLe [(1 : ℝ), 1, 0]) [0, 1, 2] =
        List.orderedInsert (idxLe [(1 : ℝ), 1, 0]) 0
          (List.orderedInsert (idxLe [(1 : ℝ), 1, 0]) 1
            (List.orderedInsert (idxLe [(1 : ℝ), 1, 0]) 2 [])) from rfl]
    rw [show List.orderedInsert (idxLe [(1 : ℝ), 1, 0]) 2 [] = [2] from rfl]
    rw [show List.orderedInsert (idxLe [(1 : ℝ), 1, 0]) 1 [2] =
        (if idxLe [(1 : ℝ), 1, 0] 1 2 then [1, 2] else [2, 1]) from rfl]
    rw [if_neg h12]
    rw [show List.orderedInsert (idxLe [(1 : ℝ), 1, 0]) 0 [2, 1] =
        (if idxLe [(1 : ℝ), 1, 0] 0 2 then [0, 2, 1]
         else 2 :: List.orderedInsert (idxLe [(1 : ℝ), 1, 0]) 0 [1]) from rfl]
    rw [if_neg h02]
    rw [show List.orderedInsert (idxLe [(1 : ℝ), 1, 0]) 0 [1] =
        (if idxLe [(1 : ℝ), 1, 0] 0 1 then [0, 1] else [1, 0]) from rfl]
    rw [if_pos h01]
  have hf0 : (decide (0 < ([(1 : ℝ), 1, 0]).getD 0 0)) = true :=
    decide_eq_true (by rw [hg0]; norm_num)
  have hf1 : (decide (0 < ([(1 : ℝ), 1, 0]).getD 1 0)) = true :=
    decide_eq_true (by rw [hg1]; norm_num)
  have hf2 : (decide (0 < ([(1 : ℝ), 1, 0]).getD 2 0)) = false :=
    decide_eq_false (by rw [hg2]; norm_num)
  unfold rankedResults
  rw [hsort,
    show ([2, 0, 1] : List ℕ).reverse = [1, 0, 2] from rfl,
    show ([1, 0, 2] : List ℕ).take 5 = [1, 0, 2] from rfl,
    List.filter_cons, List.filter_cons, List.filter_cons, List.filter_nil,
    hf0, hf1, hf2]
  simp only [if_true, if_false, List.map_cons, List.map_nil]
  rw [hg0, hg1]
  rfl

set_option maxRecDepth 8000 in
/-- C4 counterexample: with candidates `[alphaOpenIssue,
alphaOpenIssue2, gammaOpenIssue]` (the first two textually identical to
the query, hence with exactly equal similarity scores of 1), the
returned ranking is `[(alphaOpenIssue2, 1), (alphaOpenIssue, 1)]`: the
candidate with the *higher* input index comes first, refuting the
claimed lower-index-first stable tie-breaking. -/
theorem C4_tie_order_counterexample :
    find_most_similar_issues (CosineDuplicateAnalyzer.init 0.6 0.6) "alpha beta"
      "" [alphaOpenIssue, alphaOpenIssue2, gammaOpenIssue] 5 =
      [(alphaOpenIssue2, 1), (alphaOpenIssue, 1)] ∧
    alphaOpenIssue2 ≠ alphaOpenIssue := by
  constructor
  · have h2 : fitVocabulary mainVectorizer (detectCorpus "alpha beta" ""
        [alphaOpenIssue, alphaOpenIssue2, gammaOpenIssue]) = .ok vocabAB := by
      decide
    rw [find_most_similar_fit_ok (CosineDuplicateAnalyzer.init 0.6 0.6)
      "alpha beta" "" [alphaOpenIssue, alphaOpenIssue2, gammaOpenIssue] 5 vocabAB
      (by decide) h2]
    rw [show querySimilarities mainVectorizer (detectCorpus "alpha beta" ""
        [alphaOpenIssue, alphaOpenIssue2, gammaOpenIssue]) vocabAB =
      simsFor "alpha beta" "" [alphaOpenIssue, alphaOpenIssue2, gammaOpenIssue]
        vocabAB from rfl]
    rw [sims_tie_triple]
    exact ranked_tie_triple
  · decide

/-- C4 witness: the amended theorem applied at the tie example. -/
theorem C4_witness :
    (find_most_similar_issues (CosineDuplicateAnalyzer.init 0.6 0.6) "alpha beta"
      "" [alphaOpenIssue, alphaOpenIssue2, gammaOpenIssue] 5).length ≤ 5 ∧
    (∀ p ∈ find_most_similar_issues (CosineDuplicateAnalyzer.init 0.6 0.6)
      "alpha beta" "" [alphaOpenIssue, alphaOpenIssue2, gammaOpenIssue] 5,
      0 < p.2) ∧
    (find_most_similar_issues (CosineDuplicateAnalyzer.init 0.6 0.6) "alpha beta"
      "" [alphaOpenIssue, alphaOpenIssue2, gammaOpenIssue] 5).length ≤
      (simsFor "alpha beta" "" [alphaOpenIssue, alphaOpenIssue2, gammaOpenIssue]
        vocabAB).countP (fun s => decide (0 < s)) := by
  have h := C4_top_k_shape (CosineDuplicateAnalyzer.init 0.6 0.6) "alpha beta" ""
    [alphaOpenIssue, alphaOpenIssue2, gammaOpenIssue] 5
  exact ⟨h.1, h.2.1, (h.2.2.2 vocabAB (by decide) (by decide)).1⟩

/-! ## Claim C8: witness corpus (one open, disjoint candidate) -/

theorem sims_single_gamma :
    simsFor "alpha beta" "" [gammaOpenIssue] vocabAB = [0] := by
  have hq : combine_new_issue_text "alpha beta" "" = "alpha beta alpha beta " := by decide
  have hG : combine_issue_text gammaOpenIssue = "gamma delta gamma delta " := by decide
  have h2 : cosineSim mainVectorizer docsAB2 vocabAB
      "alpha beta alpha beta " "gamma delta gamma delta " = 0 := by
    apply cosineSim_eq_zero_of_dotProd_eq_zero
    apply dotProd_eq_zero_of_disjoint
    decide
  unfold simsFor querySimilarities detectCorpus
  simp only [List.map_cons, List.map_nil, hq, hG]
  show [cosineSim mainVectorizer docsAB2 vocabAB "alpha beta alpha beta "
      "gamma delta gamma delta "] = [0]
  rw [h2]

/-- C8 witness: at a concrete scoring-path call whose maximal score is
0 (one open candidate with disjoint text), the formula gives
`confidence_score = 0` (the `max_score < 0.3` arm), `is_duplicate =
false` (`0.6 ≤ 0` fails), and `similarity_score = 0`. -/
theorem C8_witness :
    (detect_duplicate (CosineDuplicateAnalyzer.init 0.6 0.6) "alpha beta" ""
      [gammaOpenIssue]).confidence_score = 0 ∧
    (detect_duplicate (CosineDuplicateAnalyzer.init 0.6 0.6) "alpha beta" ""
      [gammaOpenIssue]).is_duplicate = false ∧
    (detect_duplicate (CosineDuplicateAnalyzer.init 0.6 0.6) "alpha beta" ""
      [gammaOpenIssue]).similarity_score = 0 := by
  have h1 : open_issues_of [gammaOpenIssue] ≠ [] := by decide
  have h2 : fitVocabulary mainVectorizer
      (detectCorpus "alpha beta" "" (open_issues_of [gammaOpenIssue])) =
      .ok vocabAB := by decide
  have h := C8_scoring_formula (CosineDuplicateAnalyzer.init 0.6 0.6)
    "alpha beta" "" [gammaOpenIssue] vocabAB h1 h2
  have hopen : open_issues_of [gammaOpenIssue] = [gammaOpenIssue] := by decide
  have hmax : maxScoreFor "alpha beta" "" (open_issues_of [gammaOpenIssue])
      vocabAB = 0 := by
    unfold maxScoreFor
    rw [hopen, sims_single_gamma]
    rfl
  rcases h with ⟨_, hscore, hconf, hdup⟩
  rw [hmax] at hscore hconf hdup
  refine ⟨?_, ?_, hscore⟩
  · rw [hconf, if_pos (by norm_num : (0 : ℝ) < 0.3)]
  · have hnot : ¬ ((CosineDuplicateAnalyzer.init 0.6 0.6).similarity_threshold ≤
        (0 : ℝ)) := by
      show ¬ ((0.6 : ℝ) ≤ 0)
      norm_num
    cases hb : (detect_duplicate (CosineDuplicateAnalyzer.init 0.6 0.6)
        "alpha beta" "" [gammaOpenIssue]).is_duplicate
    · rfl
    · exact absurd (hdup.mp hb) hnot

/-! ## Claim C3: the text normalizer

The substantive characterization proved below: on every input, the
normalizer returns exactly the maximal word-character runs of the
lowercased text, joined by single spaces (in particular underscores are
*kept*, because Python's `\w` contains `_`). -/

/-- C3 counterexample: on `"error_code 404!"` the code keeps the
underscore (`\w` matches it), producing `"error_code 404"`, while the
claim's normalizer (underscore replaced by a space) would produce
`"error code 404"`. -/
theorem C3_underscore_counterexample :
    preprocess_text "error_code 404!" = "error_code 404" ∧
    normalizeClaimed "error_code 404!" = "error code 404" ∧
    preprocess_text "error_code 404!" ≠ normalizeClaimed "error_code 404!" :=
  ⟨by decide, by decide, by decide⟩

/-! Supporting lemmas for the amended characterization. -/

theorem word_not_space (c : Char) (h : isWordChar c = true) :
    isSpaceChar c = false := by
  cases hs : isSpaceChar c
  · rfl
  · exfalso
    unfold isSpaceChar at hs
    simp only [Bool.or_eq_true, decide_eq_true_eq] at hs
    rcases hs with ((((rfl | rfl) | rfl) | rfl) | rfl) | rfl <;>
      exact absurd h (by decide)

theorem space_not_word (c : Char) (h : isSpaceChar c = true) :
    isWordChar c = false := by
  cases hw : isWordChar c
  · rfl
  · rw [word_not_space c hw] at h
    exact absurd h (by decide)

theorem substNonWord_isWordChar (c : Char) :
    isWordChar (substNonWord c) = isWordChar c := by
  unfold substNonWord
  split
  · rename_i h
    simp only [Bool.and_eq_true, Bool.not_eq_true'] at h
    rw [h.1]
    decide
  · rfl

theorem substNonWord_wordOrSpace (c : Char) :
    isWordChar (substNonWord c) = true ∨ isSpaceChar (substNonWord c) = true := by
  unfold substNonWord
  split
  · right; decide
  · rename_i h
    cases hw : isWordChar c
    · cases hs : isSpaceChar c
      · exact absurd (by rw [hw, hs]; rfl) h
      · exact Or.inr rfl
    · exact Or.inl rfl

theorem substNonWord_of_word (c : Char) (h : isWordChar c = true) :
    substNonWord c = c := by
  unfold substNonWord
  rw [if_neg]
  simp [h]

theorem wordRunsAux_map_subst (cs : List Char) : ∀ acc,
    wordRunsAux acc (cs.map substNonWord) = wordRunsAux acc cs := by
  induction cs with
  | nil => intro acc; rfl
  | cons c cs ih =>
    intro acc
    rw [List.map_cons]
    cases hw : isWordChar c
    · have hw2 : isWordChar (substNonWord c) = false := by
        rw [substNonWord_isWordChar, hw]
      simp only [wordRunsAux, hw, hw2]
      cases ha : acc.isEmpty <;> simp only [if_true, if_false, Bool.false_eq_true,
        ite_false, ite_true, ih]
    · rw [substNonWord_of_word c hw]
      simp only [wordRunsAux, hw, if_true, ite_true, ih]

theorem wordRuns_map_subst (l : List Char) :
    wordRuns (l.map substNonWord) = wordRuns l :=
  wordRunsAux_map_subst l []

theorem collapseWsAux_true (cs : List Char) :
    collapseWsAux true cs =
      collapseWsAux false (cs.dropWhile (fun c => isSpaceChar c)) := by
  induction cs with
  | nil => rfl
  | cons c cs ih =>
    cases hs : isSpaceChar c
    · simp only [collapseWsAux, hs, List.dropWhile_cons, Bool.false_eq_true,
        ite_false, if_false]
    · simp only [collapseWsAux, hs, List.dropWhile_cons, ite_true, if_true, ih]

theorem wordRuns_cons_nonword (c : Char) (cs : List Char)
    (h : isWordChar c = false) :
    wordRuns (c :: cs) = wordRuns cs := by
  unfold wordRuns
  simp only [wordRunsAux, h, Bool.false_eq_true, ite_false, if_false,
    List.isEmpty_nil, ite_true, if_true]

theorem wordRunsAux_eq (cs : List Char) : ∀ acc, acc ≠ [] →
    wordRunsAux acc cs =
      (acc.reverse ++ cs.takeWhile isWordChar) ::
        wordRuns (cs.dropWhile isWordChar) := by
  induction cs with
  | nil =>
    intro acc h
    simp only [wordRunsAux, List.isEmpty_iff, h, ite_false, if_false,
      List.takeWhile_nil, List.dropWhile_nil, List.append_nil]
    rfl
  | cons c cs ih =>
    intro acc h
    cases hw : isWordChar c
    · simp only [wordRunsAux, hw, Bool.false_eq_true, ite_false, if_false,
        List.isEmpty_iff, h, List.takeWhile_cons, List.dropWhile_cons]
      rw [List.append_nil, wordRuns_cons_nonword c cs hw]
      rfl
    · simp only [wordRunsAux, hw, ite_true, if_true, List.takeWhile_cons,
        List.dropWhile_cons]
      rw [ih (c :: acc) (List.cons_ne_nil c acc)]
      simp

theorem wordRuns_cons_word (c : Char) (cs : List Char)
    (h : isWordChar c = true) :
    wordRuns (c :: cs) =
      (c :: cs.takeWhile isWordChar) :: wordRuns (cs.dropWhile isWordChar) := by
  unfold wordRuns
  simp only [wordRunsAux, h, ite_true, if_true]
  rw [wordRunsAux_eq cs [c] (List.cons_ne_nil c [])]
  rfl

theorem wordRunsAux_ne_nil (cs : List Char) : ∀ acc,
    ∀ r ∈ wordRunsAux acc cs, r ≠ [] := by
  induction cs with
  | nil =>
    intro acc r hr
    unfold wordRunsAux at hr
    cases ha : acc.isEmpty
    · rw [ha] at hr
      simp only [Bool.false_eq_true, ite_false, if_false, List.mem_singleton] at hr
      subst hr
      intro hnil
      rw [List.reverse_eq_nil_iff] at hnil
      subst hnil
      simp at ha
    · rw [ha] at hr
      simp at hr
  | cons c cs ih =>
    intro acc r hr
    unfold wordRunsAux at hr
    cases hw : isWordChar c
    · rw [hw] at hr
      simp only [Bool.false_eq_true, ite_false, if_false] at hr
      cases ha : acc.isEmpty
      · rw [ha] at hr
        simp only [Bool.false_eq_true, ite_false, if_false, List.mem_cons] at hr
        rcases hr with rfl | hr
        · intro hnil
          rw [List.reverse_eq_nil_iff] at hnil
          subst hnil
          simp at ha
        · exact ih [] r hr
      · rw [ha] at hr
        simp only [ite_true, if_true] at hr
        exact ih [] r hr
    · rw [hw] at hr
      simp only [ite_true, if_true] at hr
      exact ih (c :: acc) r hr

theorem joinWithSpace_ne_nil (rs : List (List Char))
    (h1 : ∀ r ∈ rs, r ≠ []) (h2 : rs ≠ []) : joinWithSpace rs ≠ [] := by
  cases rs with
  | nil => exact absurd rfl h2
  | cons r rs =>
    simp only [joinWithSpace]
    intro hnil
    rcases List.append_eq_nil.mp hnil with ⟨hr, _⟩
    exact h1 r (List.mem_cons_self r rs) hr

theorem wordRuns_dropWhile_sp (l : List Char) :
    wordRuns (l.dropWhile (fun c => isSpaceChar c)) = wordRuns l := by
  induction l with
  | nil => rfl
  | cons c cs ih =>
    cases hs : isSpaceChar c
    · simp only [List.dropWhile_cons, hs, Bool.false_eq_true, ite_false, if_false]
    · simp only [List.dropWhile_cons, hs, ite_true, if_true]
      rw [ih, wordRuns_cons_nonword c cs (space_not_word c hs)]

theorem collapseWs_cons_word (c : Char) (cs : List Char)
    (h : isWordChar c = true) : collapseWs (c :: cs) = c :: collapseWs cs := by
  unfold collapseWs
  simp only [collapseWsAux, word_not_space c h, Bool.false_eq_true, ite_false,
    if_false]

theorem stripChars_eq_rstrip_dropWhile (l : List Char) :
    stripChars l = rstrip (l.dropWhile (fun c => isSpaceChar c)) := rfl

theorem rstrip_cons_nonspace (c : Char) (l : List Char)
    (h : isSpaceChar c = false) : rstrip (c :: l) = c :: rstrip l := by
  unfold rstrip
  rw [List.reverse_cons, List.dropWhile_append]
  cases he : (l.reverse.dropWhile (fun c => isSpaceChar c)).isEmpty
  · simp only [Bool.false_eq_true, ite_false, if_false, List.reverse_append,
      List.reverse_cons, List.reverse_nil, List.nil_append]
    simp
  · rw [List.isEmpty_iff] at he
    simp only [ite_true, if_true, he]
    rw [List.dropWhile_cons, h]
    simp only [Bool.false_eq_true, ite_false, if_false]
    simp [he]

theorem rstrip_space_cons (l : List Char) :
    rstrip (' ' :: l) = if rstrip l = [] then [] else ' ' :: rstrip l := by
  unfold rstrip
  rw [List.reverse_cons, List.dropWhile_append]
  cases he : (l.reverse.dropWhile (fun c => isSpaceChar c)).isEmpty
  · have hne : l.reverse.dropWhile (fun c => isSpaceChar c) ≠ [] := by
      intro h0
      rw [h0] at he
      simp at he
    simp only [he, Bool.false_eq_true, if_false]
    rw [List.reverse_append]
    rw [if_neg (by simpa [List.reverse_eq_nil_iff] using hne)]
    simp
  · have h0 : l.reverse.dropWhile (fun c => isSpaceChar c) = [] :=
      List.isEmpty_iff.mp he
    simp only [he, if_true]
    rw [if_pos (by rw [h0]; rfl)]
    rfl

theorem wordHeadedB_dropWhile (l : List Char) (hl : wordOrSpace l) :
    wordHeadedB (l.dropWhile (fun c => isSpaceChar c)) = true := by
  induction l with
  | nil => rfl
  | cons c cs ih =>
    cases hs : isSpaceChar c
    · simp only [List.dropWhile_cons, hs, Bool.false_eq_true, ite_false, if_false]
      unfold wordHeadedB
      rcases hl c (List.mem_cons_self c cs) with hw | hsp
      · exact hw
      · rw [hsp] at hs; exact absurd hs (by decide)
    · simp only [List.dropWhile_cons, hs, ite_true, if_true]
      exact ih (fun x hx => hl x (List.mem_cons_of_mem c hx))

theorem collapseWs_cons_space (c : Char) (cs : List Char)
    (h : isSpaceChar c = true) :
    collapseWs (c :: cs) = ' ' :: collapseWsAux true cs := by
  unfold collapseWs
  simp only [collapseWsAux, h, ite_true, if_true]
  rfl

theorem dropWhile_collapse_wordHeaded (l : List Char)
    (h : wordHeadedB l = true) :
    (collapseWs l).dropWhile (fun c => isSpaceChar c) = collapseWs l := by
  cases l with
  | nil => rfl
  | cons d l2 =>
    have hd : isWordChar d = true := h
    rw [collapseWs_cons_word d l2 hd, List.dropWhile_cons,
      word_not_space d hd]
    simp

theorem dropWhile_collapse (l : List Char) (hl : wordOrSpace l) :
    (collapseWs l).dropWhile (fun c => isSpaceChar c) =
      collapseWs (l.dropWhile (fun c => isSpaceChar c)) := by
  cases l with
  | nil => rfl
  | cons c cs =>
    cases hw : isWordChar c
    · have hs : isSpaceChar c = true := by
        rcases hl c (List.mem_cons_self c cs) with h | h
        · rw [h] at hw; exact absurd hw (by decide)
        · exact h
      rw [collapseWs_cons_space c cs hs, List.dropWhile_cons]
      simp only [show isSpaceChar ' ' = true from rfl, ite_true, if_true]
      rw [collapseWsAux_true cs, List.dropWhile_cons, hs]
      simp only [ite_true, if_true]
      exact dropWhile_collapse_wordHeaded _
        (wordHeadedB_dropWhile cs (fun x hx => hl x (List.mem_cons_of_mem c hx)))
    · have hns : isSpaceChar c = false := word_not_space c hw
      rw [collapseWs_cons_word c cs hw, List.dropWhile_cons, hns,
        List.dropWhile_cons, hns]
      simp [collapseWs_cons_word c cs hw]

/-- The central characterization: on a list of word/space characters,
right-trimming the collapsed text yields the word runs joined by single
spaces, with one leading space when the input starts with whitespace
and still contains a word run. -/
theorem rstrip_collapse : ∀ (n : ℕ) (l : List Char), l.length ≤ n →
    wordOrSpace l →
    rstrip (collapseWs l) =
      (if wordRuns l = [] then []
       else if wordHeadedB l = true then joinWithSpace (wordRuns l)
       else ' ' :: joinWithSpace (wordRuns l)) := by
  intro n
  induction n with
  | zero =>
    intro l hlen _
    have hnil : l = [] := List.length_eq_zero.mp (Nat.le_zero.mp hlen)
    subst hnil
    rfl
  | succ n ih =>
    intro l hlen hl
    match l with
    | [] => rfl
    | c :: cs =>
      cases hw : isWordChar c
      · have hs : isSpaceChar c = true := by
          rcases hl c (List.mem_cons_self c cs) with h | h
          · rw [h] at hw; exact absurd hw (by decide)
          · exact h
        have hc1 : collapseWs (c :: cs) = ' ' :: collapseWsAux true cs :=
          collapseWs_cons_space c cs hs
        have hc2 : collapseWsAux true cs =
            collapseWs (cs.dropWhile (fun x => isSpaceChar x)) :=
          collapseWsAux_true cs
        have hlen2 : (cs.dropWhile (fun x => isSpaceChar x)).length ≤ n :=
          le_trans ((List.dropWhile_sublist _).length_le)
            (Nat.le_of_succ_le_succ hlen)
        have hl2 : wordOrSpace (cs.dropWhile (fun x => isSpaceChar x)) :=
          fun x hx => hl x (List.mem_cons_of_mem c
            ((List.dropWhile_sublist _).subset hx))
        have hihs := ih (cs.dropWhile (fun x => isSpaceChar x)) hlen2 hl2
        have hheaded : wordHeadedB (cs.dropWhile (fun x => isSpaceChar x)) = true :=
          wordHeadedB_dropWhile cs (fun x hx => hl x (List.mem_cons_of_mem c hx))
        have hruns : wordRuns (c :: cs) =
            wordRuns (cs.dropWhile (fun x => isSpaceChar x)) := by
          rw [wordRuns_cons_nonword c cs hw, ← wordRuns_dropWhile_sp cs]
        have hB : ¬ wordHeadedB (c :: cs) = true := by
          intro hx
          have : isWordChar c = true := hx
          rw [hw] at this
          exact Bool.false_ne_true this
        by_cases hr : wordRuns (cs.dropWhile (fun x => isSpaceChar x)) = []
        · have hz : rstrip (collapseWs (cs.dropWhile (fun x => isSpaceChar x))) = [] := by
            rw [hihs, if_pos hr]
          rw [hc1, hc2, rstrip_space_cons, hz, if_pos rfl, hruns, if_pos hr]
        · have hJ : rstrip (collapseWs (cs.dropWhile (fun x => isSpaceChar x))) =
              joinWithSpace (wordRuns (cs.dropWhile (fun x => isSpaceChar x))) := by
            rw [hihs, if_neg hr, if_pos hheaded]
          have hJne : joinWithSpace
              (wordRuns (cs.dropWhile (fun x => isSpaceChar x))) ≠ [] :=
            joinWithSpace_ne_nil _
              (fun r hr2 => wordRunsAux_ne_nil _ [] r hr2) hr
          rw [hc1, hc2, rstrip_space_cons, hJ, if_neg hJne, hruns,
            if_neg hr, if_neg hB]
      · have hc1 : collapseWs (c :: cs) = c :: collapseWs cs :=
          collapseWs_cons_word c cs hw
        have hrs : rstrip (c :: collapseWs cs) = c :: rstrip (collapseWs cs) :=
          rstrip_cons_nonspace c _ (word_not_space c hw)
        have hihs := ih cs (Nat.le_of_succ_le_succ hlen)
          (fun x hx => hl x (List.mem_cons_of_mem c hx))
        rw [hc1, hrs, hihs, wordRuns_cons_word c cs hw,
          if_neg (List.cons_ne_nil _ _),
          if_pos (show wordHeadedB (c :: cs) = true from hw)]
        cases cs with
        | nil =>
          simp [wordRuns, wordRunsAux, joinWithSpace]
        | cons d cs2 =>
          cases hd : isWordChar d
          · simp only [List.takeWhile_cons, List.dropWhile_cons, hd,
              Bool.false_eq_true, ite_false, if_false]
            by_cases hr : wordRuns (d :: cs2) = []
            · rw [if_pos hr, hr]
              simp [joinWithSpace]
            · have hBd : ¬ wordHeadedB (d :: cs2) = true := by
                intro hx
                have : isWordChar d = true := hx
                rw [hd] at this
                exact Bool.false_ne_true this
              rw [if_neg hr, if_neg hBd]
              have hre : (wordRuns (d :: cs2)).isEmpty = false := by
                rw [List.isEmpty_eq_false_iff_exists_mem]
                cases hx : wordRuns (d :: cs2) with
                | nil => exact absurd hx hr
                | cons r rs => exact ⟨r, List.mem_cons_self r rs⟩
              simp [joinWithSpace, hre]
          · simp only [List.takeWhile_cons, List.dropWhile_cons, hd,
              ite_true, if_true]
            rw [wordRuns_cons_word d cs2 hd,
              if_neg (List.cons_ne_nil _ _),
              if_pos (show wordHeadedB (d :: cs2) = true from hd)]
            simp [joinWithSpace, List.cons_append]

theorem strip_collapse_eq_join (l : List Char) (hl : wordOrSpace l) :
    stripChars (collapseWs l) = joinWithSpace (wordRuns l) := by
  rw [stripChars_eq_rstrip_dropWhile, dropWhile_collapse l hl]
  have hws : wordOrSpace (l.dropWhile (fun c => isSpaceChar c)) :=
    fun x hx => hl x ((List.dropWhile_sublist _).subset hx)
  have hhd : wordHeadedB (l.dropWhile (fun c => isSpaceChar c)) = true :=
    wordHeadedB_dropWhile l hl
  rw [rstrip_collapse (l.dropWhile (fun c => isSpaceChar c)).length _ le_rfl hws]
  by_cases hr : wordRuns (l.dropWhile (fun c => isSpaceChar c)) = []
  · rw [if_pos hr, ← wordRuns_dropWhile_sp l, hr]
    rfl
  · rw [if_neg hr, if_pos hhd, ← wordRuns_dropWhile_sp l]

/-- C3 amended: for every input string, the normalizer returns the
empty string on empty input without failing, and otherwise returns the
maximal word-character runs (alphanumerics *and underscores*) of the
lowercased input joined by single spaces — i.e. every character that is
not a word character and not whitespace is replaced by a space,
whitespace runs are collapsed, and the ends are trimmed, with
underscores kept rather than replaced. -/
theorem C3_preprocess_amended (s : String) :
    preprocess_text s = normalizeAmendedSpec s := by
  by_cases hs : s = ""
  · subst hs
    rfl
  · unfold preprocess_text normalizeAmendedSpec
    rw [if_neg hs]
    have hmap : wordRuns (s.toList.map Char.toLower) =
        wordRuns ((s.toList.map Char.toLower).map substNonWord) :=
      (wordRuns_map_subst _).symm
    rw [hmap]
    congr 1
    refine strip_collapse_eq_join _ ?_
    intro c hc
    rcases List.mem_map.mp hc with ⟨c2, _, rfl⟩
    exact substNonWord_wordOrSpace c2

end AIIssueTriage
